import Mathlib

/-!
Verification of the LLMChat conversation-orchestration engine.

This file gives a shallow embedding of the engine found in the repository
(`src/stores/chat.ts`, `src/stores/chatSessions.ts`, `src/stores/chatPersistence.ts`,
`src/utils/storage.ts`, `src/utils/mockService.ts`) and proves or refutes the
specified properties against it.

Modelling conventions:
- JavaScript strings are modelled as `List Char` (abbreviated `Str`).
- `nanoid` identifiers are modelled by a fresh-id counter (`nextId`); all the
  source needs from `nanoid` is uniqueness of the generated ids.
- `Date.now()` is modelled by the ambient `clock` field; none of the claims
  depend on distinct timestamp values, so the clock is not ticked.
- `AbortController` objects are modelled by numeric ids allocated from
  `nextCtrl`; `abort()` adds the id to `abortedCtrls`, and a signal is the
  controller id it was taken from.
- Asynchronous control flow is modelled as a small-step machine: each `async`
  function is cut at its `await` points into atomic segments (the JavaScript
  event loop runs each segment without preemption), and an execution is a
  sequence of resolution events applied to the suspended computations.
- Persistence (`persist()`) writes a snapshot of the in-memory state to
  storage; it does not change the in-memory state, so the in-memory machine
  treats it as the identity.  The storage half is modelled separately below
  (`loadFromStorage` / `saveToStorage`) at the JSON-value level.
-/

namespace LLMChat

abbrev Str := List Char

/-- `ChatRole` from `src/types/chat.ts`. -/
inductive ChatRole where
  | user
  | assistant
  | system
  deriving DecidableEq, Repr

/-- `MessageType` from `src/types/chat.ts`. -/
inductive MessageType where
  | text
  | card
  | file
  deriving DecidableEq, Repr

/-- `MessageStatus` from `src/types/chat.ts`. -/
inductive MessageStatus where
  | pending
  | streaming
  | sent
  | error
  deriving DecidableEq, Repr

/-- `AssistantCard` from `src/types/chat.ts`. -/
structure AssistantCard where
  cardType : Str
  title : Str
  description : Str
  actionText : Str
  actionUrl : Str
  deriving DecidableEq, Repr

/-- `FileAttachment` from `src/types/chat.ts`. -/
structure FileAttachment where
  name : Str
  size : Nat
  mime : Str
  storageKey : Str
  deriving DecidableEq, Repr

/-- `ChatMessage` from `src/types/chat.ts` (ids are modelled as `Nat`). -/
structure ChatMessage where
  id : Nat
  sessionId : Nat
  role : ChatRole
  msgType : MessageType
  content : Str
  createdAt : Nat
  status : MessageStatus
  card : Option AssistantCard := none
  attachment : Option FileAttachment := none
  deriving DecidableEq, Repr

/-- `ChatSession` from `src/types/chat.ts`. -/
structure ChatSession where
  id : Nat
  title : Str
  createdAt : Nat
  updatedAt : Nat
  messageIds : List Nat
  deriving DecidableEq, Repr

/-- Mutate the first element satisfying `p` (models `Array.prototype.find`
followed by an in-place mutation of the found element). -/
def updateFirst (p : α → Bool) (f : α → α) : List α → List α
  | [] => []
  | x :: xs => if p x then f x :: xs else x :: updateFirst p f xs

/-- `Array.prototype.findIndex`. -/
def findIndexFrom (p : α → Bool) : List α → Option Nat
  | [] => none
  | x :: xs => if p x then some 0 else (findIndexFrom p xs).map (· + 1)

/-- The whitespace test behind `String.prototype.trim` (the characters that
occur in this code base). -/
def isWsChar (c : Char) : Bool :=
  c = ' ' || c = '\t' || c = '\n' || c = '\r'

/-- `String.prototype.trim`. -/
def trimStr (s : Str) : Str :=
  ((s.dropWhile isWsChar).reverse.dropWhile isWsChar).reverse

/-- Value of a digit string, as `parseInt(s, 10)` computes it on an
all-digit string. -/
def digitsToNat (l : Str) : Nat :=
  l.foldl (fun acc c => acc * 10 + (c.toNat - 48)) 0

/-- The literal prefix of the auto-generated titles in
`createSession` (`chatSessions.ts`): the regex is `^新的对话 (\d+)$`. -/
def titlePrefix : Str := "新的对话 ".toList

/-- Number extracted from a session title by the regex match in
`createSession`: the title must be exactly `titlePrefix` followed by one or
more digits; otherwise the code maps it to `0` (and `0` is filtered out). -/
def parseTitleNumber (title : Str) : Nat :=
  if titlePrefix.isPrefixOf title then
    let rest := title.drop titlePrefix.length
    if rest ≠ [] ∧ rest.all Char.isDigit then digitsToNat rest else 0
  else 0

/-- The numbers in use among the session titles: map titles to their
numbers and keep the positive ones (`.map(...).filter(n => n > 0)`). -/
def sessionNumbers (sessions : List ChatSession) : List Nat :=
  (sessions.map (fun s => parseTitleNumber s.title)).filter (fun n => 0 < n)

/-- The `existingNumbers` computation of `createSession`: the numbers in
use, sorted ascending (`.sort((a, b) => a - b)`). -/
def collectNumbers (sessions : List ChatSession) : List Nat :=
  List.insertionSort (· ≤ ·) (sessionNumbers sessions)

/-- The gap-finding loop of `createSession`: starting from `nextNumber = 1`,
for each number in the sorted list, increment on equality, break when the
number overshoots. -/
def pickNextNumber : Nat → List Nat → Nat
  | n, [] => n
  | n, m :: ms =>
    if m = n then pickNextNumber (n + 1) ms
    else if n < m then n
    else pickNextNumber n ms

/-- Decimal rendering of a number, for the template
string `新的对话 ${nextNumber}`. -/
def natToStr (n : Nat) : Str := Nat.toDigits 10 n

/-- The auto-generated title `新的对话 ${nextNumber}`. -/
def autoTitle (n : Nat) : Str := titlePrefix ++ natToStr n

/-- State of the `chatSessions` Pinia store. -/
structure SessionsState where
  sessions : List ChatSession
  activeSessionId : Option Nat
  deriving DecidableEq, Repr

/-- `createSession(title?)` from `chatSessions.ts`: compute the smallest free
auto-number, build the session, `unshift` it to the front, make it active,
and return it. -/
def createSession (st : SessionsState) (title : Option Str) (now freshId : Nat) :
    ChatSession × SessionsState :=
  let nextNumber := pickNextNumber 1 (collectNumbers st.sessions)
  let chosen :=
    match title with
    | some t => if trimStr t ≠ [] then trimStr t else autoTitle nextNumber
    | none => autoTitle nextNumber
  let newSession : ChatSession :=
    { id := freshId, title := chosen, createdAt := now, updatedAt := now, messageIds := [] }
  (newSession,
    { sessions := newSession :: st.sessions, activeSessionId := some newSession.id })

/-- `setActiveSession(id)` from `chatSessions.ts`. -/
def setActiveSessionS (st : SessionsState) (id : Nat) : SessionsState :=
  { st with activeSessionId := some id }

/-- `renameSession(id, title)` from `chatSessions.ts`. -/
def renameSessionS (st : SessionsState) (id : Nat) (title : Str) (now : Nat) : SessionsState :=
  { st with sessions :=
      (updateFirst (fun s => s.id == id)
        (fun s => { s with title := title, updatedAt := now }) st.sessions) }

/-- `deleteSession(id)` from `chatSessions.ts`. -/
def deleteSessionS (st : SessionsState) (id : Nat) : SessionsState :=
  let sessions := st.sessions.filter (fun s => s.id != id)
  let active :=
    if st.activeSessionId = some id then sessions.head?.map (·.id)
    else st.activeSessionId
  { sessions := sessions, activeSessionId := active }

/-- `touchSession(id)` from `chatSessions.ts`. -/
def touchSessionS (st : SessionsState) (id : Nat) (now : Nat) : SessionsState :=
  { st with sessions :=
      (updateFirst (fun s => s.id == id) (fun s => { s with updatedAt := now }) st.sessions) }

/-- `appendMessageId(sessionId, messageId)` from `chatSessions.ts`: find the
session; if found and the id is not already present, push it and bump
`updatedAt`; otherwise do nothing. -/
def appendMessageId (sessions : List ChatSession) (sessionId messageId now : Nat) :
    List ChatSession :=
  updateFirst (fun s => s.id == sessionId)
    (fun s =>
      if messageId ∈ s.messageIds then s
      else { s with messageIds := s.messageIds ++ [messageId], updatedAt := now })
    sessions

/-- `replaceMessageIds(sessionId, messageIds)` from `chatSessions.ts`. -/
def replaceMessageIds (sessions : List ChatSession) (sessionId : Nat) (ids : List Nat)
    (now : Nat) : List ChatSession :=
  updateFirst (fun s => s.id == sessionId)
    (fun s => { s with messageIds := ids, updatedAt := now }) sessions

/-! ## Durable storage (`src/utils/storage.ts`, `src/stores/chatPersistence.ts`)

The durable store holds at most one value under the storage key.  Its raw
contents are modelled at the JSON-value level: `none` means the key is
absent, `some none` means the raw string does not parse (`JSON.parse`
throws), and `some (some j)` means it parses to the JavaScript value `j`.
`JSON.stringify` followed by `JSON.parse` is the identity on this value
model, which is exact for the JSON-safe data this program stores. -/

/-- JSON values (equivalently, the JavaScript values `JSON.parse` can
produce).  Object fields are listed in insertion order with unique keys,
as `JSON.parse` yields them. -/
inductive Json where
  | null
  | bool (b : Bool)
  | num (n : Int)
  | str (s : Str)
  | arr (elems : List Json)
  | obj (fields : List (Str × Json))

/-- Result of a JavaScript expression that can also be `undefined`
(what `parsed.data` evaluates to). -/
inductive JsValue where
  | undef
  | val (j : Json)

/-- Field lookup on a parsed JSON object. -/
def jsonField (fields : List (Str × Json)) (key : Str) : Option Json :=
  (fields.find? (fun p => p.1 == key)).map (·.2)

/-- Result of evaluating the member access `parsed.data`: a `TypeError` on
`null`, the field value or `undefined` on objects, `undefined` on every
other value (numbers, strings, booleans and arrays are boxed, so member
access yields `undefined` rather than throwing). -/
inductive MemberAccess where
  | thrown
  | undef
  | val (j : Json)

/-- Evaluate `parsed.data` on the parse result. -/
def dataMember (parsed : Json) : MemberAccess :=
  match parsed with
  | .null => .thrown
  | .obj fields =>
    match jsonField fields "data".toList with
    | some v => .val v
    | none => .undef
  | _ => (.undef)

/-- `loadFromStorage(fallback)` from `src/utils/storage.ts`: return the
fallback when the key is absent; otherwise parse and return `parsed.data`,
returning the fallback when `JSON.parse` or the member access throws
(the `catch` block). -/
def loadFromStorage (stored : Option (Option Json)) (fallback : Json) : JsValue :=
  match stored with
  | none => .val fallback
  | some none => .val fallback
  | some (some parsed) =>
    match dataMember parsed with
    | .thrown => .val fallback
    | .undef => .undef
    | .val v => .val v

/-- `saveToStorage(data)` from `src/utils/storage.ts`: store
`JSON.stringify({ version: 1, data })`; re-parsing yields the same value. -/
def saveToStorage (data : Json) : Option (Option Json) :=
  some (some (.obj [("version".toList, .num 1), ("data".toList, data)]))

/-- `clearStorage()` from `src/utils/storage.ts`. -/
def clearStorage : Option (Option Json) := none

/-- The `defaultState` of `chatPersistence.ts`: `{sessions: [], messages: {}}`. -/
def emptyStateJson : Json := .obj [("sessions".toList, .arr []), ("messages".toList, .obj [])]

/-- The JSON clone `JSON.parse(JSON.stringify(value))` used by
`chatPersistence.ts`; the identity on the JSON-value model. -/
def cloneJson (j : Json) : Json := j

/-- `readInitialChatState()` from `chatPersistence.ts`:
`loadFromStorage(clone(defaultState))`. -/
def readInitialChatState (stored : Option (Option Json)) : JsValue :=
  loadFromStorage stored (cloneJson emptyStateJson)

/-- `persistChatState(state)` from `chatPersistence.ts`: the storage contents
after `saveToStorage(state)`. -/
def persistChatState (state : Json) : Option (Option Json) :=
  saveToStorage state

/-- JSON encoding of a role, as it is serialized. -/
def encodeRole : ChatRole → Json
  | .user => .str "user".toList
  | .assistant => .str "assistant".toList
  | .system => .str "system".toList

/-- JSON encoding of a message type. -/
def encodeMsgType : MessageType → Json
  | .text => .str "text".toList
  | .card => .str "card".toList
  | .file => .str "file".toList

/-- JSON encoding of a status. -/
def encodeStatus : MessageStatus → Json
  | .pending => .str "pending".toList
  | .streaming => .str "streaming".toList
  | .sent => .str "sent".toList
  | .error => .str "error".toList

/-- JSON encoding of a card payload. -/
def encodeCard (c : AssistantCard) : Json :=
  .obj [("cardType".toList, .str c.cardType), ("title".toList, .str c.title),
    ("description".toList, .str c.description), ("actionText".toList, .str c.actionText),
    ("actionUrl".toList, .str c.actionUrl)]

/-- JSON encoding of a file attachment. -/
def encodeAttachment (a : FileAttachment) : Json :=
  .obj [("name".toList, .str a.name), ("size".toList, .num a.size),
    ("mime".toList, .str a.mime), ("storageKey".toList, .str a.storageKey)]

/-- Decimal string key used for a session id in the messages record. -/
def natKey (n : Nat) : Str := Nat.toDigits 10 n

/-- JSON encoding of a message; optional fields that are `undefined` are
dropped by `JSON.stringify`. -/
def encodeMessage (m : ChatMessage) : Json :=
  .obj ([("id".toList, .str (natKey m.id)), ("sessionId".toList, .str (natKey m.sessionId)),
    ("role".toList, encodeRole m.role), ("type".toList, encodeMsgType m.msgType),
    ("content".toList, .str m.content), ("createdAt".toList, .num m.createdAt),
    ("status".toList, encodeStatus m.status)]
    ++ (match m.card with | some c => [("card".toList, encodeCard c)] | none => [])
    ++ (match m.attachment with
        | some a => [("attachment".toList, encodeAttachment a)]
        | none => []))

/-- JSON encoding of a session. -/
def encodeSession (s : ChatSession) : Json :=
  .obj [("id".toList, .str (natKey s.id)), ("title".toList, .str s.title),
    ("createdAt".toList, .num s.createdAt), ("updatedAt".toList, .num s.updatedAt),
    ("messageIds".toList, .arr (s.messageIds.map (fun i => .str (natKey i))))]

/-- JSON encoding of the `{sessions, messages}` snapshot body. -/
def encodeSnapshot (sessions : List ChatSession)
    (messages : List (Nat × List ChatMessage)) : Json :=
  .obj [("sessions".toList, .arr (sessions.map encodeSession)),
    ("messages".toList,
      .obj (messages.map (fun p => (natKey p.1, .arr (p.2.map encodeMessage)))))]

/-- `makePersistedState(sessions, messages)` from `chatPersistence.ts`:
deep-clone both halves into a fresh `{sessions, messages}` object. -/
def makePersistedState (sessions : List ChatSession)
    (messages : List (Nat × List ChatMessage)) : Json :=
  .obj [("sessions".toList, cloneJson (.arr (sessions.map encodeSession))),
    ("messages".toList,
      cloneJson (.obj (messages.map (fun p => (natKey p.1, .arr (p.2.map encodeMessage))))))]

/-! ## The mock streaming source (`src/utils/mockService.ts`) -/

/-- Chunk decomposition loop, with explicit fuel (the effective chunk size
`Math.max(1, chunkSize)` is at least 1, so `content.length` rounds of the
cursor loop always suffice). -/
def chunksOfAux (size : Nat) : Nat → Str → List Str
  | 0, _ => []
  | fuel + 1, content =>
    if content = [] then []
    else content.take (max 1 size) :: chunksOfAux size fuel (content.drop (max 1 size))

/-- The chunk decomposition computed by the cursor loop of `streamText`:
`content.slice(cursor, min(length, cursor + chunkSize))` with the effective
chunk size `Math.max(1, options.chunkSize ?? 5)`, repeated until the cursor
reaches the end. -/
def chunksOf (size : Nat) (content : Str) : List Str :=
  chunksOfAux size content.length content

/-- The full sequence of chunks `streamText(content, options)` yields when it
is never cancelled and never errors. -/
def streamTextChunks (content : Str) (chunkSize : Option Nat) : List Str :=
  chunksOf (chunkSize.getD 5) content

/-! ## The chat store (`src/stores/chat.ts`) -/

/-- The `messagesBySession` record: an association list in key insertion
order (JavaScript object semantics; keys are unique, and all accesses go
through first-match lookup). -/
abbrev MsgMap := List (Nat × List ChatMessage)

/-- Read a session's message list; absent sessions read as `[]`. -/
def msgsOf (m : MsgMap) (sid : Nat) : List ChatMessage :=
  ((m.find? (fun p => p.1 == sid)).map (·.2)).getD []

/-- Whether the record has an entry for the session. -/
def hasEntry (m : MsgMap) (sid : Nat) : Bool :=
  (m.find? (fun p => p.1 == sid)).isSome

/-- Write a session's message list, creating the entry at the end of the
record when missing (JavaScript property creation order). -/
def putMsgs (m : MsgMap) (sid : Nat) (l : List ChatMessage) : MsgMap :=
  if hasEntry m sid then updateFirst (fun p => p.1 == sid) (fun p => (p.1, l)) m
  else m ++ [(sid, l)]

/-- Combined state of the `chat` and `chatSessions` stores plus the modelled
ambient resources (fresh-id counter, abort controllers, clock). -/
structure ChatState where
  sessionsStore : SessionsState
  messagesBySession : MsgMap
  streamingMessageId : Option Nat
  isSending : Bool
  abortController : Option Nat
  abortedCtrls : List Nat
  nextCtrl : Nat
  nextId : Nat
  clock : Nat
  deriving DecidableEq, Repr

/-- The stores as they initialize from an empty persisted state. -/
def emptyChatState : ChatState :=
  { sessionsStore := { sessions := [], activeSessionId := none },
    messagesBySession := [], streamingMessageId := none, isSending := false,
    abortController := none, abortedCtrls := [], nextCtrl := 0, nextId := 0, clock := 0 }

/-- `getMessages(sessionId)`: reading through the store creates a missing
entry (this is its side effect; the returned list is `msgsOf`). -/
def ensureEntry (st : ChatState) (sid : Nat) : ChatState :=
  { st with messagesBySession := putMsgs st.messagesBySession sid (msgsOf st.messagesBySession sid) }

/-- `appendMessage(sessionId, message)` from `chat.ts`: push onto the
session's list and mirror the id via `appendMessageId`. -/
def appendMessage (st : ChatState) (sid : Nat) (msg : ChatMessage) : ChatState :=
  { st with
    messagesBySession := putMsgs st.messagesBySession sid (msgsOf st.messagesBySession sid ++ [msg]),
    sessionsStore := { st.sessionsStore with sessions :=
      (appendMessageId st.sessionsStore.sessions sid msg.id st.clock) } }

/-- `updateMessage(sessionId, messageId, updater)` from `chat.ts`: locate by
id, mutate in place, no-op when not found. -/
def updateMessage (st : ChatState) (sid mid : Nat) (f : ChatMessage → ChatMessage) : ChatState :=
  { st with messagesBySession :=
      (putMsgs st.messagesBySession sid
        (updateFirst (fun m => m.id == mid) f (msgsOf st.messagesBySession sid))) }

/-- `setMessageStatus` from `chat.ts`. -/
def setMessageStatus (st : ChatState) (sid mid : Nat) (status : MessageStatus) : ChatState :=
  updateMessage st sid mid (fun m => { m with status := status })

/-- `setActiveSession` lifted to the combined state. -/
def setActiveSession (st : ChatState) (sid : Nat) : ChatState :=
  { st with sessionsStore := setActiveSessionS st.sessionsStore sid }

/-- `touchSession` lifted to the combined state. -/
def touchSession (st : ChatState) (sid : Nat) : ChatState :=
  { st with sessionsStore := touchSessionS st.sessionsStore sid st.clock }

/-- `startNewSession(title?)` from `chat.ts`: create the session (which also
makes it active), give it an empty message list, persist, return its id. -/
def startNewSession (st : ChatState) (title : Option Str) : ChatState × Nat :=
  let created := createSession st.sessionsStore title st.clock st.nextId
  let st := { st with sessionsStore := created.2, nextId := st.nextId + 1 }
  let st := { st with messagesBySession := putMsgs st.messagesBySession created.1.id [] }
  (st, created.1.id)

/-- `ensureSession()` from `chat.ts`. -/
def ensureSession (st : ChatState) : ChatState × Nat :=
  match st.sessionsStore.activeSessionId with
  | some sid => (st, sid)
  | none => startNewSession st none

/-- The session a send operation records its messages into. -/
def sendTargetSession (st : ChatState) : Nat := (ensureSession st).2

/-- `buildContextMessages(sessionId)` from `chat.ts`: set the active session,
read the session's messages (creating the entry), filter to non-streaming
text messages, take the last 8, project to `{role, content}`.  Note that it
both reads and writes the stores. -/
def buildContextMessages (st : ChatState) (sid : Nat) : ChatState × List (ChatRole × Str) :=
  let st := setActiveSession st sid
  let st := ensureEntry st sid
  let allMessages := msgsOf st.messagesBySession sid
  let textMessages := allMessages.filter (fun m => m.msgType == .text && m.status != .streaming)
  let slice := textMessages.drop (textMessages.length - 8)
  (st, slice.map (fun m => (m.role, m.content)))

/-- `this.abortController?.abort()`: mark the current controller aborted. -/
def abortCurrent (st : ChatState) : ChatState :=
  match st.abortController with
  | some c => { st with abortedCtrls := c :: st.abortedCtrls }
  | none => st

/-- `this.abortController = new AbortController()`: allocate a fresh
controller and install it. -/
def newController (st : ChatState) : ChatState × Nat :=
  ({ st with abortController := some st.nextCtrl, nextCtrl := st.nextCtrl + 1 }, st.nextCtrl)

/-- Whether a captured signal is aborted (`options.signal?.aborted`). -/
def ctrlAborted (st : ChatState) (sig : Option Nat) : Bool :=
  match sig with
  | some c => st.abortedCtrls.contains c
  | none => false

/-- Which of the three generation flows owns a suspended streaming write:
they share `streamIntoMessage` but differ in their completion handlers. -/
inductive WriterKind where
  | plainSend
  | filesSend
  | regenerate
  deriving DecidableEq, Repr

/-- Continuation state of one asynchronous generation flow, cut at its
`await` points. -/
inductive GenPhase where
  /-- `sendMessage(input)` has been called but has not run yet. -/
  | readySend (input : Str)
  /-- Suspended on `await createChatCompletion(...)`; remembers the session,
  the target message and the controller installed for this request. -/
  | awaitCompletion (kind : WriterKind) (sid phId ctrl : Nat)
  /-- Suspended inside the chunk loop of `streamIntoMessage` on the chunk
  delay; `sig` is the signal captured when `streamText` was called and
  `rest` the chunks not yet appended. -/
  | awaitChunk (kind : WriterKind) (sid phId : Nat) (sig : Option Nat) (rest : List Str)
      (card : Option AssistantCard)
  /-- The async function returned; `threw` records whether it rethrew. -/
  | finished (threw : Bool)
  deriving DecidableEq, Repr

/-- Outcome of one `createChatCompletion` request. -/
inductive CompletionResult where
  | ok (content : Str) (card : Option AssistantCard)
  | err
  deriving DecidableEq, Repr

/-- `assistant`/`card` message appended after a completion that carries a
card. -/
def appendCardMessage (st : ChatState) (sid : Nat) (card : AssistantCard) : ChatState :=
  let msg : ChatMessage :=
    { id := st.nextId, sessionId := sid, role := .assistant, msgType := .card,
      content := card.title, createdAt := st.clock, status := .sent, card := some card }
  appendMessage { st with nextId := st.nextId + 1 } sid msg

/-- Success epilogue of the three flows (code after `streamIntoMessage`
returns, including the `finally` block).
`plainSend` (`sendMessage`): status sent, clear the streaming pointer,
append the card, touch, persist; finally clear `isSending` and the
controller.
`filesSend` (`sendFiles`): the same inner epilogue, then touch and persist
after the inner `try`; its `finally` clears only `isSending`.
`regenerate`: status sent, append the card, persist; finally clears the
controller (it never touches `streamingMessageId` or `isSending`). -/
def finishOk (st : ChatState) (kind : WriterKind) (sid phId : Nat)
    (card : Option AssistantCard) : ChatState :=
  match kind with
  | .plainSend =>
    let st := setMessageStatus st sid phId .sent
    let st := { st with streamingMessageId := none }
    let st := match card with | some c => appendCardMessage st sid c | none => st
    let st := touchSession st sid
    { st with isSending := false, abortController := none }
  | .filesSend =>
    let st := setMessageStatus st sid phId .sent
    let st := { st with streamingMessageId := none }
    let st := match card with | some c => appendCardMessage st sid c | none => st
    let st := touchSession st sid
    { st with isSending := false }
  | .regenerate =>
    let st := setMessageStatus st sid phId .sent
    let st := match card with | some c => appendCardMessage st sid c | none => st
    { st with abortController := none }

/-- Failure epilogue (the `catch` plus `finally` blocks); the returned flag
says whether the error is rethrown out of the flow.
`plainSend` rethrows; `sendFiles` swallows it after logging (and still
touches the session); `regenerate` swallows it. -/
def finishErr (st : ChatState) (kind : WriterKind) (sid phId : Nat) : ChatState × Bool :=
  match kind with
  | .plainSend =>
    let st := setMessageStatus st sid phId .error
    let st := { st with streamingMessageId := none }
    ({ st with isSending := false, abortController := none }, true)
  | .filesSend =>
    let st := setMessageStatus st sid phId .error
    let st := { st with streamingMessageId := none }
    let st := touchSession st sid
    ({ st with isSending := false }, false)
  | .regenerate =>
    let st := setMessageStatus st sid phId .error
    ({ st with abortController := none }, false)

/-- First synchronous segment of `sendMessage(content)`: trim and reject
empty input; ensure a session; append the user message and the streaming
placeholder; record the streaming target; persist; build the context
window; abort the previous controller and install a fresh one; issue the
request and suspend on it. -/
def sendStart (st : ChatState) (input : Str) : ChatState × GenPhase :=
  let trimmed := trimStr input
  if trimmed = [] then (st, .finished false)
  else
    let ens := ensureSession st
    let st := ens.1
    let sid := ens.2
    let userMsg : ChatMessage :=
      { id := st.nextId, sessionId := sid, role := .user, msgType := .text,
        content := trimmed, createdAt := st.clock, status := .sent }
    let st := appendMessage { st with nextId := st.nextId + 1 } sid userMsg
    let phId := st.nextId
    let placeholder : ChatMessage :=
      { id := phId, sessionId := sid, role := .assistant, msgType := .text,
        content := [], createdAt := st.clock, status := .streaming }
    let st := appendMessage { st with nextId := st.nextId + 1 } sid placeholder
    let st := { st with streamingMessageId := some phId, isSending := true }
    let st := (buildContextMessages st sid).1
    let st := abortCurrent st
    let nc := newController st
    (nc.1, .awaitCompletion .plainSend sid phId nc.2)

/-- The files of a `sendFiles` batch. -/
structure UploadFile where
  name : Str
  size : Nat
  mime : Str
  deriving DecidableEq, Repr

/-- The per-file loop of `sendFiles`: allocate an id, derive the storage
key, attempt the blob write (external, best effort, no store effect),
append the `user`/`file` message. -/
def appendFileMessages (st : ChatState) (sid : Nat) (files : List UploadFile) : ChatState :=
  files.foldl
    (fun st f =>
      let msgId := st.nextId
      let storageKey := "file_".toList ++ natKey msgId
      let fileMsg : ChatMessage :=
        { id := msgId, sessionId := sid, role := .user, msgType := .file,
          content := f.name, createdAt := st.clock, status := .sent,
          attachment := some ⟨f.name, f.size, f.mime, storageKey⟩ }
      appendMessage { st with nextId := st.nextId + 1 } sid fileMsg)
    st

/-- First synchronous segment of `sendFiles(files)`: reject an empty batch;
ensure a session; set `isSending`; append the file messages; append the
streaming placeholder; persist; build the context (the synthetic summary
line goes only to the backend); abort the previous controller, install a
fresh one, issue the request and suspend. -/
def sendFilesStart (st : ChatState) (files : List UploadFile) : ChatState × GenPhase :=
  if files = [] then (st, .finished false)
  else
    let ens := ensureSession st
    let st := ens.1
    let sid := ens.2
    let st := { st with isSending := true }
    let st := appendFileMessages st sid files
    let phId := st.nextId
    let placeholder : ChatMessage :=
      { id := phId, sessionId := sid, role := .assistant, msgType := .text,
        content := [], createdAt := st.clock, status := .streaming }
    let st := appendMessage { st with nextId := st.nextId + 1 } sid placeholder
    let st := { st with streamingMessageId := some phId }
    let st := (buildContextMessages st sid).1
    let st := abortCurrent st
    let nc := newController st
    (nc.1, .awaitCompletion .filesSend sid phId nc.2)

/-- The run of `assistant`/`card` messages immediately following a position
(the `while` loop computing `removeCount` in `regenerateAssistantMessage`). -/
def countLeadingCards : List ChatMessage → Nat
  | [] => 0
  | m :: ms =>
    if m.role == .assistant && m.msgType == .card then countLeadingCards ms + 1 else 0

/-- First synchronous segment of `regenerateAssistantMessage(messageId)`:
no-op without an active session, an unlocated target, or no preceding user
message; remove the trailing card run and resync `messageIds` (persisting)
when non-empty; reset the target to an empty streaming message; abort the
previous controller, install a fresh one, issue the single-turn request and
suspend. -/
def regenStart (st : ChatState) (messageId : Nat) : ChatState × GenPhase :=
  match st.sessionsStore.activeSessionId with
  | none => (st, .finished false)
  | some sid =>
    let list := msgsOf st.messagesBySession sid
    let st := ensureEntry st sid
    match findIndexFrom (fun m => m.id == messageId) list with
    | none => (st, .finished false)
    | some index =>
      match ((list.take index).reverse.find? (fun m => m.role == .user)) with
      | none => (st, .finished false)
      | some _previousUser =>
        let removeCount := countLeadingCards (list.drop (index + 1))
        let st :=
          if 0 < removeCount then
            let newList := list.take (index + 1) ++ list.drop (index + 1 + removeCount)
            let st := { st with messagesBySession := putMsgs st.messagesBySession sid newList }
            { st with sessionsStore := { st.sessionsStore with sessions :=
                (replaceMessageIds st.sessionsStore.sessions sid (newList.map (·.id)) st.clock) } }
          else st
        let st := setMessageStatus st sid messageId .streaming
        let st := updateMessage st sid messageId (fun m => { m with content := [] })
        let st := abortCurrent st
        let nc := newController st
        (nc.1, .awaitCompletion .regenerate sid messageId nc.2)

/-- Resumption after `await createChatCompletion` resolves.  On rejection,
run the failure epilogue.  On success, enter `streamIntoMessage`: reset the
target to an empty streaming message, capture the *current* controller's
signal, compute the chunk sequence (chunk size 4); an empty sequence, or a
signal already aborted at the first check, ends the write immediately (an
`AbortError` from `streamText` is caught and swallowed inside
`streamIntoMessage`), running the success epilogue; otherwise suspend on
the first chunk delay. -/
def genComplete (st : ChatState) (kind : WriterKind) (sid phId : Nat)
    (res : CompletionResult) : ChatState × GenPhase :=
  match res with
  | .err =>
    let fin := finishErr st kind sid phId
    (fin.1, .finished fin.2)
  | .ok content card =>
    let st := updateMessage st sid phId (fun m => { m with content := [], status := .streaming })
    let sig := st.abortController
    match streamTextChunks content (some 4) with
    | [] => (finishOk st kind sid phId card, .finished false)
    | c :: rest =>
      if ctrlAborted st sig then (finishOk st kind sid phId card, .finished false)
      else (st, .awaitChunk kind sid phId sig (c :: rest) card)

/-- Resumption after one chunk delay resolves: append the chunk to the
target's content; if that was the last chunk the loop exits and the success
epilogue runs; otherwise check the captured signal before the next chunk —
when it is aborted, `streamText` raises `AbortError`, which
`streamIntoMessage` swallows, so the success epilogue runs with the partial
content; otherwise suspend on the next chunk delay. -/
def genChunkStep (st : ChatState) (kind : WriterKind) (sid phId : Nat) (sig : Option Nat)
    (rest : List Str) (card : Option AssistantCard) : ChatState × GenPhase :=
  match rest with
  | [] => (finishOk st kind sid phId card, .finished false)
  | c :: rest =>
    let st := updateMessage st sid phId (fun m => { m with content := m.content ++ c })
    match rest with
    | [] => (finishOk st kind sid phId card, .finished false)
    | _ =>
      if ctrlAborted st sig then (finishOk st kind sid phId card, .finished false)
      else (st, .awaitChunk kind sid phId sig rest card)

/-- Resolution events a suspended generation flow can receive. -/
inductive GenEv where
  | complete (res : CompletionResult)
  | chunk
  deriving DecidableEq, Repr

/-- Apply one resolution event to a suspended flow (events that do not match
the current suspension are not possible for it and leave it unchanged). -/
def genStep (cfg : ChatState × GenPhase) (ev : GenEv) : ChatState × GenPhase :=
  match cfg.2, ev with
  | .awaitCompletion kind sid phId _ctrl, .complete res => genComplete cfg.1 kind sid phId res
  | .awaitChunk kind sid phId sig rest card, .chunk => genChunkStep cfg.1 kind sid phId sig rest card
  | _, _ => cfg

/-- Run a list of resolution events over a suspended flow. -/
def runGen (cfg : ChatState × GenPhase) (evs : List GenEv) : ChatState × GenPhase :=
  evs.foldl genStep cfg

/-- The events that drive one generation to completion when the backend
answers `res` and nothing cancels it: the completion resolution followed by
one delay resolution per chunk. -/
def genEvents (res : CompletionResult) : List GenEv :=
  match res with
  | .ok content _ => .complete res :: List.replicate (streamTextChunks content (some 4)).length .chunk
  | .err => [.complete res]

/-- `sendMessage(content)` run start to finish with no interleaved
operation, the backend answering `res`. -/
def sendMessage (st : ChatState) (input : Str) (res : CompletionResult) : ChatState :=
  (runGen (sendStart st input) (genEvents res)).1

/-- `sendFiles(files)` run start to finish with no interleaved operation. -/
def sendFiles (st : ChatState) (files : List UploadFile) (res : CompletionResult) : ChatState :=
  (runGen (sendFilesStart st files) (genEvents res)).1

/-- `regenerateAssistantMessage(messageId)` run start to finish with no
interleaved operation. -/
def regenerateAssistantMessage (st : ChatState) (messageId : Nat)
    (res : CompletionResult) : ChatState :=
  (runGen (regenStart st messageId) (genEvents res)).1

/-- `deleteSession(sessionId)` from `chat.ts`: best-effort blob deletes
(external), then remove the session and its message list, persist. -/
def deleteSession (st : ChatState) (sid : Nat) : ChatState :=
  { st with
    sessionsStore := deleteSessionS st.sessionsStore sid,
    messagesBySession := st.messagesBySession.filter (fun p => p.1 != sid) }

/-- `resetAll()` from `chat.ts`: clear blob storage and the persisted
snapshot (external), reset both stores, persist the empty snapshot.  It
does not touch `streamingMessageId`, `isSending` or the controller. -/
def resetAll (st : ChatState) : ChatState :=
  { st with
    sessionsStore := { sessions := [], activeSessionId := none },
    messagesBySession := [] }

/-- Status of the message `mid` in session `sid`. -/
def messageStatusIn (st : ChatState) (sid mid : Nat) : Option MessageStatus :=
  ((msgsOf st.messagesBySession sid).find? (fun m => m.id == mid)).map (·.status)

/-- All messages stored in a `MsgMap`, in record order. -/
def flatMsgs (m : MsgMap) : List ChatMessage := (m.map Prod.snd).flatten

/-- All messages across the store. -/
def allMsgs (st : ChatState) : List ChatMessage :=
  (st.messagesBySession.map Prod.snd).flatten

/-- Number of messages in the whole store with `status = streaming`. -/
def countStreaming (st : ChatState) : Nat :=
  ((allMsgs st).filter (fun m => m.status == .streaming)).length

/-! ### Two overlapping sends (scenario C) -/

/-- Two `sendMessage` calls with their own continuations over a shared
store. -/
structure TwoSends where
  st : ChatState
  t1 : GenPhase
  t2 : GenPhase
  deriving DecidableEq, Repr

/-- Events of the two-send interleaving: either call starting, its
completion request resolving, or one of its chunk delays resolving. -/
inductive TwoEv where
  | start1
  | start2
  | complete1 (res : CompletionResult)
  | complete2 (res : CompletionResult)
  | chunk1
  | chunk2
  deriving DecidableEq, Repr

/-- Apply one event to the two-send configuration. -/
def twoStep (c : TwoSends) (ev : TwoEv) : TwoSends :=
  match ev with
  | .start1 =>
    match c.t1 with
    | .readySend input =>
      let r := sendStart c.st input
      { c with st := r.1, t1 := r.2 }
    | _ => c
  | .start2 =>
    match c.t2 with
    | .readySend input =>
      let r := sendStart c.st input
      { c with st := r.1, t2 := r.2 }
    | _ => c
  | .complete1 res =>
    let r := genStep (c.st, c.t1) (.complete res)
    { c with st := r.1, t1 := r.2 }
  | .complete2 res =>
    let r := genStep (c.st, c.t2) (.complete res)
    { c with st := r.1, t2 := r.2 }
  | .chunk1 =>
    let r := genStep (c.st, c.t1) .chunk
    { c with st := r.1, t1 := r.2 }
  | .chunk2 =>
    let r := genStep (c.st, c.t2) .chunk
    { c with st := r.1, t2 := r.2 }

/-- Run an event sequence over the two-send configuration. -/
def runTwo (c : TwoSends) (evs : List TwoEv) : TwoSends :=
  evs.foldl twoStep c

/-- Order-preserving merge enumeration, with explicit fuel (the sum of the
lengths always suffices). -/
def mergesAux : Nat → List TwoEv → List TwoEv → List (List TwoEv)
  | 0, xs, ys => [xs ++ ys]
  | _ + 1, [], ys => [ys]
  | _ + 1, x :: xs, [] => [x :: xs]
  | fuel + 1, x :: xs, y :: ys =>
    (mergesAux fuel xs (y :: ys)).map (fun t => x :: t) ++
      (mergesAux fuel (x :: xs) ys).map (fun t => y :: t)

/-- All interleavings (order-preserving merges) of two event sequences. -/
def merges (xs ys : List TwoEv) : List (List TwoEv) :=
  mergesAux (xs.length + ys.length) xs ys

/-! ### Sequential operation sequences -/

/-- The engine's entry operations, each annotated with the backend outcome
its generation stage sees. -/
inductive EngineOp where
  | send (input : Str) (res : CompletionResult)
  | sendFilesOp (files : List UploadFile) (res : CompletionResult)
  | regen (messageId : Nat) (res : CompletionResult)
  | newSession (title : Option Str)
  | removeSession (sid : Nat)
  | renameOp (sid : Nat) (title : Str)
  | setActiveOp (sid : Nat)
  | touchOp (sid : Nat)
  | resetOp

/-- Run one operation start to finish. -/
def runOp (st : ChatState) : EngineOp → ChatState
  | .send input res => sendMessage st input res
  | .sendFilesOp files res => sendFiles st files res
  | .regen mid res => regenerateAssistantMessage st mid res
  | .newSession title => (startNewSession st title).1
  | .removeSession sid => deleteSession st sid
  | .renameOp sid title => { st with sessionsStore := renameSessionS st.sessionsStore sid title st.clock }
  | .setActiveOp sid => setActiveSession st sid
  | .touchOp sid => touchSession st sid
  | .resetOp => resetAll st

/-- Run a sequence of operations, each completing before the next starts. -/
def runOps (st : ChatState) (ops : List EngineOp) : ChatState :=
  ops.foldl runOp st

/-- A possibly part-way execution of one more operation: the states at its
`await` points are the observation points inside an in-flight operation. -/
inductive PartialTail where
  | noTail
  | sendTail (input : Str) (evs : List GenEv)
  | sendFilesTail (files : List UploadFile) (evs : List GenEv)
  | regenTail (messageId : Nat) (evs : List GenEv)

/-- Apply a partial tail to a state. -/
def runTail (st : ChatState) : PartialTail → ChatState
  | .noTail => st
  | .sendTail input evs => (runGen (sendStart st input) evs).1
  | .sendFilesTail files evs => (runGen (sendFilesStart st files) evs).1
  | .regenTail mid evs => (runGen (regenStart st mid) evs).1

/-- Every state the engine can be observed in when operations never overlap:
a sequence of completed operations from the initial state, then any prefix
of one more operation. -/
def observe (ops : List EngineOp) (tail : PartialTail) : ChatState :=
  runTail (runOps emptyChatState ops) tail

/-- A spec-level restatement of what `loadFromStorage` returns, following
the amended wording of the load contract: the parsed value's `data` field
when the stored value parses to an object carrying one; the fallback when
the key is absent, the value is unparsable, or it parses to `null` (the
member access throws and the `catch` treats it like a parse failure);
`undefined` when it parses to anything else. -/
def loadContract (stored : Option (Option Json)) (fallback : Json) : JsValue :=
  match stored with
  | none => .val fallback
  | some none => .val fallback
  | some (some .null) => .val fallback
  | some (some (.obj fields)) =>
    match jsonField fields "data".toList with
    | some v => .val v
    | none => .undef
  | some (some _) => (.undef)

/-- Initial configuration of the two-send scenario: a fresh store, the
first send called with `Hello`, the second with `Again`. -/
def twoSendsInit : TwoSends :=
  { st := emptyChatState, t1 := .readySend "Hello".toList, t2 := .readySend "Again".toList }

/-- The canonical scenario-C interleaving: the first send suspends on its
completion request; the second send starts immediately (aborting the first
send's controller); the first completion resolves with `Hi there` and its
chunks drain; the second completion resolves with `Okay` and its chunk
drains.  In `twoSendsInit` the shared session gets id 0, the first send's
placeholder id 2 and the second send's placeholder id 4. -/
def scenarioCTrace : List TwoEv :=
  [.start1, .start2, .complete1 (.ok "Hi there".toList none), .chunk1, .chunk1,
    .complete2 (.ok "Okay".toList none), .chunk2]

/-- Remaining events of the first send once it has started: its completion
resolution and its two chunk delays. -/
def send1Events : List TwoEv := [.complete1 (.ok "Hi there".toList none), .chunk1, .chunk1]

/-- All events of the second send: its start, its completion resolution and
its single chunk delay. -/
def send2Events : List TwoEv := [.start2, .complete2 (.ok "Okay".toList none), .chunk2]

/-- The `assistant`/`card` message list a successful completion appends at
the end of the session list (empty when the response carries no card);
`nid` and `clk` are the fresh-id counter and the clock at completion
time. -/
def cardMsgsAppended (card : Option AssistantCard) (sid nid clk : Nat) : List ChatMessage :=
  match card with
  | some c => [⟨nid, sid, .assistant, .card, c.title, clk, .sent, some c, none⟩]
  | none => []

/-- No message anywhere in the store is `streaming`. -/
def NoStreaming (st : ChatState) : Prop :=
  ∀ m ∈ allMsgs st, m.status ≠ .streaming

/-- Message ids across the whole store are pairwise distinct and below the
fresh-id counter. -/
def MsgsWF (st : ChatState) : Prop :=
  ((allMsgs st).map (fun m => m.id)).Nodup ∧ ∀ m ∈ allMsgs st, m.id < st.nextId

/-- The only message that may be `streaming` is the generation target
`mid`, held in session `sid`'s list. -/
def SoleStreaming (sid mid : Nat) (st : ChatState) : Prop :=
  ∀ m ∈ allMsgs st, m.status = .streaming →
    m.id = mid ∧ m ∈ msgsOf st.messagesBySession sid

/-- The in-flight invariant of a suspended generation: well-formed ids,
and nothing streaming except (while the writer is suspended) its own
target. -/
def GenInv (cfg : ChatState × GenPhase) : Prop :=
  MsgsWF cfg.1 ∧
  match cfg.2 with
  | .readySend _ => NoStreaming cfg.1
  | .awaitCompletion _ s p _ => SoleStreaming s p cfg.1
  | .awaitChunk _ s p _ _ _ => SoleStreaming s p cfg.1
  | .finished _ => NoStreaming cfg.1

/-- The position (as an index into `list`) of the nearest user message
strictly before `index`: the message that
`[...list].slice(0, index).reverse().find(msg => msg.role === 'user')`
locates in `regenerateAssistantMessage`. -/
def prevUserPos (list : List ChatMessage) (index : Nat) : Option Nat :=
  (findIndexFrom (fun m => m.role == ChatRole.user) (list.take index).reverse).map
    (fun r => index - 1 - r)

/-- The suspended phases a regeneration of message `mid` in session `sid`
can be in: any suspension of the streaming writer over that target, or a
finished flow. -/
def phaseTargets (sid mid : Nat) : GenPhase → Prop
  | .readySend _ => False
  | .awaitCompletion _ s p _ => s = sid ∧ p = mid
  | .awaitChunk _ s p _ _ _ => s = sid ∧ p = mid
  | .finished _ => True

/-! ### Concrete regeneration scenarios -/

/-- A concrete card for the regeneration scenarios. -/
def regenCard : AssistantCard :=
  ⟨"link".toList, "Card".toList, "d".toList, "open".toList, "u".toList⟩

/-- A sent user message with id 0 in session 0. -/
def regenU0 : ChatMessage := ⟨0, 0, .user, .text, "q1".toList, 0, .sent, none, none⟩

/-- The assistant text message (id 1) that the regenerations target. -/
def regenA1 : ChatMessage := ⟨1, 0, .assistant, .text, "a1".toList, 1, .sent, none, none⟩

/-- A stale card message (id 2) directly following the target. -/
def regenC2 : ChatMessage :=
  ⟨2, 0, .assistant, .card, "Old".toList, 2, .sent, some regenCard, none⟩

/-- A later user message (id 2) following the target. -/
def regenM2 : ChatMessage := ⟨2, 0, .user, .text, "q2".toList, 2, .sent, none, none⟩

/-- A later assistant message (id 3) answering `regenM2`. -/
def regenM3 : ChatMessage := ⟨3, 0, .assistant, .text, "a2".toList, 3, .sent, none, none⟩

/-- The session record of the witness scenario: ids of
`regenU0, regenA1, regenC2`. -/
def regenSess : ChatSession := ⟨0, "t".toList, 0, 0, [0, 1, 2]⟩

/-- State where the regeneration target is followed only by its stale card:
session 0 active with `user 0, assistant 1, card 2`. -/
def regenWitnessState : ChatState :=
  { sessionsStore := { sessions := [regenSess], activeSessionId := some 0 }
    messagesBySession := [(0, [regenU0, regenA1, regenC2])]
    streamingMessageId := none
    isSending := false
    abortController := none
    abortedCtrls := []
    nextCtrl := 5
    nextId := 10
    clock := 100 }

/-- State where the regeneration target is NOT the last message: session 0
active with `user 0, assistant 1, user 2, assistant 3`. -/
def regenCounterState : ChatState :=
  { sessionsStore :=
      { sessions := [⟨0, "t".toList, 0, 0, [0, 1, 2, 3]⟩], activeSessionId := some 0 }
    messagesBySession := [(0, [regenU0, regenA1, regenM2, regenM3])]
    streamingMessageId := none
    isSending := false
    abortController := none
    abortedCtrls := []
    nextCtrl := 5
    nextId := 10
    clock := 100 }

/-! ## General lemmas -/

theorem updateFirst_idem (p : α → Bool) (f : α → α)
    (hpf : ∀ x, p x = true → p (f x) = true)
    (hff : ∀ x, p x = true → f (f x) = f x) :
    ∀ l : List α, updateFirst p f (updateFirst p f l) = updateFirst p f l := by
  intro l
  induction l with
  | nil => rfl
  | cons x xs ih =>
    by_cases h : p x
    · simp [updateFirst, h, hpf x h, hff x h]
    · simp [updateFirst, h, ih]

theorem updateFirst_of_forall_false (p : α → Bool) (f : α → α) (l : List α)
    (h : ∀ x ∈ l, p x = false) : updateFirst p f l = l := by
  induction l with
  | nil => rfl
  | cons x xs ih =>
    simp only [updateFirst, h x (List.mem_cons_self x xs)]
    simp only [Bool.false_eq_true, if_false, List.cons.injEq, true_and]
    exact ih fun y hy => h y (List.mem_cons_of_mem x hy)

theorem find?_decomp (p : α → Bool) (l : List α) (a : α) (h : l.find? p = some a) :
    ∃ l1 l2, l = l1 ++ a :: l2 ∧ (∀ x ∈ l1, p x = false) ∧ p a = true ∧
      ∀ f : α → α, updateFirst p f l = l1 ++ f a :: l2 := by
  induction l with
  | nil => simp [List.find?] at h
  | cons x xs ih =>
    by_cases hx : p x
    · rw [List.find?_cons_of_pos _ hx] at h
      cases h
      exact ⟨[], xs, rfl, by simp, hx, fun f => by simp [updateFirst, hx]⟩
    · rw [List.find?_cons_of_neg _ hx] at h
      obtain ⟨l1, l2, heq, hfalse, hpa, hupd⟩ := ih h
      refine ⟨x :: l1, l2, by simp [heq], ?_, hpa, fun f => ?_⟩
      · intro y hy
        rcases List.mem_cons.mp hy with rfl | hy
        · simpa using hx
        · exact hfalse y hy
      · simp [updateFirst, hx, hupd f]

theorem find?_prefix_false (p : α → Bool) (l1 l2 : List α)
    (h : ∀ x ∈ l1, p x = false) : (l1 ++ l2).find? p = l2.find? p := by
  induction l1 with
  | nil => rfl
  | cons x xs ih =>
    have hx : ¬ p x = true := by simp [h x (List.mem_cons_self x xs)]
    simp only [List.cons_append, List.find?_cons_of_neg _ hx]
    exact ih fun y hy => h y (List.mem_cons_of_mem x hy)

theorem mem_updateFirst (p : α → Bool) (f : α → α) (l : List α) (y : α)
    (h : y ∈ updateFirst p f l) : y ∈ l ∨ ∃ x ∈ l, p x = true ∧ y = f x := by
  induction l with
  | nil => simp [updateFirst] at h
  | cons x xs ih =>
    by_cases hx : p x
    · simp only [updateFirst, hx, if_true] at h
      rcases List.mem_cons.mp h with rfl | h
      · exact Or.inr ⟨x, List.mem_cons_self x xs, hx, rfl⟩
      · exact Or.inl (List.mem_cons_of_mem x h)
    · simp only [updateFirst, hx, Bool.false_eq_true, if_false] at h
      rcases List.mem_cons.mp h with rfl | h
      · exact Or.inl (List.mem_cons_self y xs)
      · rcases ih h with h | ⟨z, hz, hpz, hyz⟩
        · exact Or.inl (List.mem_cons_of_mem x h)
        · exact Or.inr ⟨z, List.mem_cons_of_mem x hz, hpz, hyz⟩

theorem map_updateFirst (g : α → β) (p : α → Bool) (f : α → α) (l : List α)
    (hf : ∀ x, g (f x) = g x) : (updateFirst p f l).map g = l.map g := by
  induction l with
  | nil => rfl
  | cons x xs ih =>
    by_cases hx : p x
    · simp [updateFirst, hx, hf x]
    · simp [updateFirst, hx, ih]

theorem splice_sublist (l : List α) (i j : Nat) (hij : i ≤ j) :
    List.Sublist (l.take i ++ l.drop j) l := by
  have h1 : List.Sublist (l.drop j) (l.drop i) := by
    rw [show j = i + (j - i) by omega, ← List.drop_drop]
    exact List.drop_sublist _ _
  have h2 := h1.append_left (l.take i)
  rwa [List.take_append_drop] at h2

theorem findIndexFrom_decomp (p : α → Bool) (l : List α) (i : Nat)
    (h : findIndexFrom p l = some i) :
    ∃ x, l.get? i = some x ∧ p x = true ∧ ∀ k < i, ∃ y, l.get? k = some y ∧ p y = false := by
  induction l generalizing i with
  | nil => simp [findIndexFrom] at h
  | cons x xs ih =>
    by_cases hx : p x
    · simp only [findIndexFrom, hx, if_true] at h
      cases h
      exact ⟨x, rfl, hx, fun k hk => absurd hk (Nat.not_lt_zero k)⟩
    · simp only [findIndexFrom, hx, Bool.false_eq_true, if_false, Option.map_eq_some'] at h
      obtain ⟨j, hj, rfl⟩ := h
      obtain ⟨y, hy, hpy, hbefore⟩ := ih j hj
      refine ⟨y, by simpa using hy, hpy, fun k hk => ?_⟩
      match k with
      | 0 => exact ⟨x, rfl, by simpa using hx⟩
      | k + 1 =>
        obtain ⟨z, hz, hpz⟩ := hbefore k (by omega)
        exact ⟨z, by simpa using hz, hpz⟩

/-! ## Lemmas about the message record -/

theorem allMsgs_eq_flat (st : ChatState) : allMsgs st = flatMsgs st.messagesBySession := rfl

theorem flatMsgs_append (m1 m2 : MsgMap) :
    flatMsgs (m1 ++ m2) = flatMsgs m1 ++ flatMsgs m2 := by
  simp [flatMsgs]

/-- The master decomposition: the flat message list splits around the
session's own list, and `putMsgs` replaces exactly that middle section
(appending a fresh final section when the entry does not exist). -/
theorem putMsgs_shape (m : MsgMap) (sid : Nat) :
    ∃ F1 F2, flatMsgs m = F1 ++ msgsOf m sid ++ F2 ∧
      (∀ l, flatMsgs (putMsgs m sid l) = F1 ++ l ++ F2) ∧
      (∀ l, msgsOf (putMsgs m sid l) sid = l) := by
  cases hfind : m.find? (fun p => p.1 == sid) with
  | none =>
    have hfalse := List.find?_eq_none.mp hfind
    have hmsgs : msgsOf m sid = [] := by simp [msgsOf, hfind]
    have hhas : hasEntry m sid = false := by simp [hasEntry, hfind]
    refine ⟨flatMsgs m, [], by simp [hmsgs], fun l => ?_, fun l => ?_⟩
    · simp [putMsgs, hhas, flatMsgs_append, flatMsgs]
    · have : (m ++ [(sid, l)]).find? (fun p => p.1 == sid) = some (sid, l) := by
        rw [find?_prefix_false _ _ _ (fun x hx => by simpa using hfalse x hx)]
        simp [List.find?]
      simp [putMsgs, hhas, msgsOf, this]
  | some entry =>
    obtain ⟨m1, m2, heq, hfalse, hp, hupd⟩ := find?_decomp _ m entry hfind
    have hkey : entry.1 = sid := by simpa using hp
    have hmsgs : msgsOf m sid = entry.2 := by simp [msgsOf, hfind]
    have hhas : hasEntry m sid = true := by simp [hasEntry, hfind]
    refine ⟨flatMsgs m1, flatMsgs m2, ?_, fun l => ?_, fun l => ?_⟩
    · rw [hmsgs, heq]
      simp [flatMsgs]
    · rw [putMsgs, hhas, if_pos rfl, hupd]
      simp [flatMsgs]
    · rw [putMsgs, hhas, if_pos rfl, hupd]
      have : (m1 ++ (entry.1, l) :: m2).find? (fun p => p.1 == sid) = some (entry.1, l) := by
        rw [find?_prefix_false _ _ _ hfalse]
        simp [List.find?, hkey]
      simp [msgsOf, this]

theorem msgsOf_putMsgs_self (m : MsgMap) (sid : Nat) (l : List ChatMessage) :
    msgsOf (putMsgs m sid l) sid = l := by
  obtain ⟨F1, F2, _, _, hself⟩ := putMsgs_shape m sid
  exact hself l

/-! ## Projection lemmas for the state operations -/

@[simp] theorem abortCurrent_messages (st : ChatState) :
    (abortCurrent st).messagesBySession = st.messagesBySession := by
  cases h : st.abortController <;> simp [abortCurrent, h]

@[simp] theorem abortCurrent_sessions (st : ChatState) :
    (abortCurrent st).sessionsStore = st.sessionsStore := by
  cases h : st.abortController <;> simp [abortCurrent, h]

@[simp] theorem abortCurrent_nextId (st : ChatState) :
    (abortCurrent st).nextId = st.nextId := by
  cases h : st.abortController <;> simp [abortCurrent, h]

@[simp] theorem abortCurrent_nextCtrl (st : ChatState) :
    (abortCurrent st).nextCtrl = st.nextCtrl := by
  cases h : st.abortController <;> simp [abortCurrent, h]

@[simp] theorem newController_messages (st : ChatState) :
    (newController st).1.messagesBySession = st.messagesBySession := rfl

@[simp] theorem newController_sessions (st : ChatState) :
    (newController st).1.sessionsStore = st.sessionsStore := rfl

@[simp] theorem newController_nextId (st : ChatState) :
    (newController st).1.nextId = st.nextId := rfl

@[simp] theorem setActiveSession_messages (st : ChatState) (sid : Nat) :
    (setActiveSession st sid).messagesBySession = st.messagesBySession := rfl

@[simp] theorem touchSession_messages (st : ChatState) (sid : Nat) :
    (touchSession st sid).messagesBySession = st.messagesBySession := rfl

@[simp] theorem touchSession_nextId (st : ChatState) (sid : Nat) :
    (touchSession st sid).nextId = st.nextId := rfl

@[simp] theorem ensureEntry_msgsOf (st : ChatState) (sid : Nat) :
    msgsOf (ensureEntry st sid).messagesBySession sid = msgsOf st.messagesBySession sid :=
  msgsOf_putMsgs_self _ _ _

@[simp] theorem appendMessage_msgsOf (st : ChatState) (sid : Nat) (msg : ChatMessage) :
    msgsOf (appendMessage st sid msg).messagesBySession sid =
      msgsOf st.messagesBySession sid ++ [msg] :=
  msgsOf_putMsgs_self _ _ _

@[simp] theorem updateMessage_msgsOf (st : ChatState) (sid mid : Nat)
    (f : ChatMessage → ChatMessage) :
    msgsOf (updateMessage st sid mid f).messagesBySession sid =
      updateFirst (fun m => m.id == mid) f (msgsOf st.messagesBySession sid) :=
  msgsOf_putMsgs_self _ _ _

@[simp] theorem appendMessage_nextId (st : ChatState) (sid : Nat) (msg : ChatMessage) :
    (appendMessage st sid msg).nextId = st.nextId := rfl

@[simp] theorem updateMessage_nextId (st : ChatState) (sid mid : Nat)
    (f : ChatMessage → ChatMessage) :
    (updateMessage st sid mid f).nextId = st.nextId := rfl

@[simp] theorem updateMessage_sessions (st : ChatState) (sid mid : Nat)
    (f : ChatMessage → ChatMessage) :
    (updateMessage st sid mid f).sessionsStore = st.sessionsStore := rfl

@[simp] theorem updateMessage_abortController (st : ChatState) (sid mid : Nat)
    (f : ChatMessage → ChatMessage) :
    (updateMessage st sid mid f).abortController = st.abortController := rfl

@[simp] theorem updateMessage_abortedCtrls (st : ChatState) (sid mid : Nat)
    (f : ChatMessage → ChatMessage) :
    (updateMessage st sid mid f).abortedCtrls = st.abortedCtrls := rfl

@[simp] theorem appendMessage_abortController (st : ChatState) (sid : Nat) (msg : ChatMessage) :
    (appendMessage st sid msg).abortController = st.abortController := rfl

@[simp] theorem appendMessage_abortedCtrls (st : ChatState) (sid : Nat) (msg : ChatMessage) :
    (appendMessage st sid msg).abortedCtrls = st.abortedCtrls := rfl

theorem updateFirst_append_false (p : α → Bool) (f : α → α) (l1 l2 : List α)
    (h : ∀ x ∈ l1, p x = false) :
    updateFirst p f (l1 ++ l2) = l1 ++ updateFirst p f l2 := by
  induction l1 with
  | nil => rfl
  | cons x xs ih =>
    have hx : p x = false := h x (List.mem_cons_self x xs)
    simp only [List.cons_append, updateFirst, hx, Bool.false_eq_true, if_false,
      List.cons.injEq, true_and]
    exact ih fun y hy => h y (List.mem_cons_of_mem x hy)

theorem mem_flat_putMsgs (m : MsgMap) (sid : Nat) (l : List ChatMessage) (y : ChatMessage)
    (h : y ∈ flatMsgs (putMsgs m sid l)) : y ∈ flatMsgs m ∨ y ∈ l := by
  obtain ⟨F1, F2, hm, hput, _⟩ := putMsgs_shape m sid
  rw [hput l] at h
  rw [hm]
  rcases List.mem_append.mp h with h | h
  · rcases List.mem_append.mp h with h | h
    · exact Or.inl (by simp [h])
    · exact Or.inr h
  · exact Or.inl (by simp [h])

theorem mem_flat_of_mem_msgsOf (m : MsgMap) (sid : Nat) (y : ChatMessage)
    (h : y ∈ msgsOf m sid) : y ∈ flatMsgs m := by
  obtain ⟨F1, F2, hm, _, _⟩ := putMsgs_shape m sid
  rw [hm]
  simp [h]

theorem chunksOfAux_flatten (size : Nat) :
    ∀ (fuel : Nat) (content : Str), content.length ≤ fuel →
      (chunksOfAux size fuel content).flatten = content := by
  intro fuel
  induction fuel with
  | zero =>
    intro content h
    have : content = [] := List.eq_nil_of_length_eq_zero (by omega)
    simp [this, chunksOfAux]
  | succ fuel ih =>
    intro content h
    by_cases hc : content = []
    · simp [hc, chunksOfAux]
    · have hlen : 0 < content.length := List.length_pos.mpr hc
      have hdrop : (content.drop (max 1 size)).length ≤ fuel := by
        simp only [List.length_drop]
        omega
      simp only [chunksOfAux, hc, if_false, List.flatten_cons, ih _ hdrop]
      exact List.take_append_drop _ _

/-- The concatenation of the chunk sequence reconstructs the content. -/
theorem streamTextChunks_flatten (content : Str) (chunkSize : Option Nat) :
    (streamTextChunks content chunkSize).flatten = content :=
  chunksOfAux_flatten _ _ _ (Nat.le_refl _)

theorem ensureSession_abortedCtrls (st : ChatState) :
    (ensureSession st).1.abortedCtrls = st.abortedCtrls := by
  cases h : st.sessionsStore.activeSessionId <;> simp [ensureSession, h, startNewSession]

theorem ensureSession_abortController (st : ChatState) :
    (ensureSession st).1.abortController = st.abortController := by
  cases h : st.sessionsStore.activeSessionId <;> simp [ensureSession, h, startNewSession]

theorem ensureSession_nextCtrl (st : ChatState) :
    (ensureSession st).1.nextCtrl = st.nextCtrl := by
  cases h : st.sessionsStore.activeSessionId <;> simp [ensureSession, h, startNewSession]

theorem ensureSession_nextId_le (st : ChatState) :
    st.nextId ≤ (ensureSession st).1.nextId := by
  cases h : st.sessionsStore.activeSessionId <;> simp [ensureSession, h, startNewSession]

theorem ensureSession_idBound (st : ChatState)
    (hids : ∀ m ∈ allMsgs st, m.id < st.nextId) :
    ∀ m ∈ allMsgs (ensureSession st).1, m.id < (ensureSession st).1.nextId := by
  cases h : st.sessionsStore.activeSessionId with
  | some sid => simpa [ensureSession, h] using hids
  | none =>
    intro m hm
    simp only [ensureSession, h, startNewSession] at hm ⊢
    rw [allMsgs_eq_flat] at hm
    rcases mem_flat_putMsgs _ _ _ _ hm with hmem | hmem
    · exact Nat.lt_succ_of_lt (hids m hmem)
    · simp at hmem

/-- Active session of the pre-`sendStart` state after `ensureSession`. -/
theorem ensureSession_active (st : ChatState) :
    (ensureSession st).1.sessionsStore.activeSessionId = some (ensureSession st).2 := by
  cases h : st.sessionsStore.activeSessionId <;>
    simp [ensureSession, h, startNewSession, createSession]

theorem findIndexFrom_cons_true (p : α → Bool) (x : α) (l : List α) (h : p x = true) :
    findIndexFrom p (x :: l) = some 0 := by
  simp [findIndexFrom, h]

theorem findIndexFrom_prefix_false (p : α → Bool) (l1 l2 : List α)
    (h : ∀ x ∈ l1, p x = false) :
    findIndexFrom p (l1 ++ l2) = (findIndexFrom p l2).map (· + l1.length) := by
  induction l1 with
  | nil => simp
  | cons x xs ih =>
    have hx : p x = false := h x (List.mem_cons_self x xs)
    simp only [List.cons_append, findIndexFrom, hx, Bool.false_eq_true, if_false,
      List.append_eq]
    rw [ih (fun y hy => h y (List.mem_cons_of_mem x hy))]
    cases findIndexFrom p l2 with
    | none => rfl
    | some n =>
      simp only [Option.map_some, List.length_cons]
      exact congrArg some (by show n + xs.length + 1 = n + (xs.length + 1); omega)

theorem countLeadingCards_all (C : List ChatMessage)
    (hC : ∀ m ∈ C, m.role = .assistant ∧ m.msgType = .card) :
    countLeadingCards C = C.length := by
  induction C with
  | nil => rfl
  | cons m ms ih =>
    obtain ⟨h1, h2⟩ := hC m (List.mem_cons_self m ms)
    simp [countLeadingCards, h1, h2, ih (fun x hx => hC x (List.mem_cons_of_mem m hx))]

theorem find?_updateFirst_self (p : α → Bool) (f : α → α) (l : List α) (a : α)
    (hfind : l.find? p = some a) (hf : p (f a) = true) :
    (updateFirst p f l).find? p = some (f a) := by
  obtain ⟨l1, l2, heq, hfalse, hp, hupd⟩ := find?_decomp p l a hfind
  rw [hupd f, find?_prefix_false _ _ _ hfalse]
  simp [List.find?, hf]

theorem find?_replaceMessageIds (sessions : List ChatSession) (sid : Nat) (ids : List Nat)
    (now : Nat) (sess : ChatSession)
    (hfind : sessions.find? (fun s => s.id == sid) = some sess) :
    (replaceMessageIds sessions sid ids now).find? (fun s => s.id == sid) =
      some { sess with messageIds := ids, updatedAt := now } := by
  have hp : (sess.id == sid) = true := by
    have := List.find?_some hfind
    simpa using this
  exact find?_updateFirst_self _ _ _ _ hfind (by simpa using hp)

theorem find?_appendMessageId (sessions : List ChatSession) (sid mid now : Nat)
    (sess : ChatSession)
    (hfind : sessions.find? (fun s => s.id == sid) = some sess)
    (hnot : mid ∉ sess.messageIds) :
    (appendMessageId sessions sid mid now).find? (fun s => s.id == sid) =
      some { sess with messageIds := sess.messageIds ++ [mid], updatedAt := now } := by
  have hp : (sess.id == sid) = true := by
    have := List.find?_some hfind
    simpa using this
  have hres := find?_updateFirst_self (fun s => s.id == sid)
    (fun s => if mid ∈ s.messageIds then s
      else { s with messageIds := s.messageIds ++ [mid], updatedAt := now })
    sessions sess hfind (by by_cases h : mid ∈ sess.messageIds <;> simpa [h] using hp)
  rw [appendMessageId, hres]
  simp [hnot]

/-! ## C7: `appendMessageId` is idempotent -/

/-- C7: for every sessions list, session id and message id, calling
`appendMessageId` twice with the same id yields the same sessions state as
calling it once (at any pair of times): the second call is a no-op, so in
particular the session's `messageIds` and its length are unchanged by it. -/
theorem appendMessageId_idempotent (sessions : List ChatSession) (sid mid t1 t2 : Nat) :
    appendMessageId (appendMessageId sessions sid mid t1) sid mid t2 =
      appendMessageId sessions sid mid t1 := by
  unfold appendMessageId
  induction sessions with
  | nil => rfl
  | cons s ss ih =>
    by_cases h : s.id == sid
    · by_cases hm : mid ∈ s.messageIds
      · simp [updateFirst, h, hm]
      · simp [updateFirst, h, hm]
    · simp [updateFirst, h, ih]

/-! ## C6: auto-numbering of created sessions -/

theorem pickNextNumber_le (l : List Nat) : ∀ n, n ≤ pickNextNumber n l := by
  induction l with
  | nil => intro n; simp [pickNextNumber]
  | cons m ms ih =>
    intro n
    by_cases h : m = n
    · simpa [pickNextNumber, h] using Nat.le_trans (Nat.le_succ n) (ih (n + 1))
    · by_cases h2 : n < m
      · simp [pickNextNumber, h, h2]
      · simpa [pickNextNumber, h, h2] using ih n

theorem pickNextNumber_not_mem (l : List Nat) (hs : l.Sorted (· ≤ ·)) :
    ∀ n, pickNextNumber n l ∉ l := by
  induction l with
  | nil => intro n; simp
  | cons m ms ih =>
    intro n
    rw [List.sorted_cons] at hs
    by_cases h : m = n
    · have hge := pickNextNumber_le ms (n + 1)
      simp only [pickNextNumber, h, if_true, List.mem_cons]
      push_neg
      refine ⟨fun hc => ?_, ih hs.2 (n + 1)⟩
      omega
    · by_cases h2 : n < m
      · simp only [pickNextNumber, h, if_false, h2, if_true, List.mem_cons]
        push_neg
        refine ⟨fun hc => h hc.symm, fun hm => ?_⟩
        have := hs.1 _ hm
        omega
      · simp only [pickNextNumber, h, if_false, h2, List.mem_cons]
        push_neg
        have hge := pickNextNumber_le ms n
        refine ⟨fun hc => ?_, ih hs.2 n⟩
        omega

theorem pickNextNumber_mem (l : List Nat) (hs : l.Sorted (· ≤ ·)) :
    ∀ n k, n ≤ k → k < pickNextNumber n l → k ∈ l := by
  induction l with
  | nil => intro n k h1 h2; simp [pickNextNumber] at h2; omega
  | cons m ms ih =>
    intro n k h1 h2
    rw [List.sorted_cons] at hs
    by_cases h : m = n
    · simp only [pickNextNumber, h, if_true] at h2
      by_cases hk : k = n
      · simp [hk, h]
      · exact List.mem_cons_of_mem _ (ih hs.2 (n + 1) k (by omega) h2)
    · by_cases hlt : n < m
      · simp only [pickNextNumber, h, if_false, hlt, if_true] at h2
        omega
      · simp only [pickNextNumber, h, if_false, hlt] at h2
        exact List.mem_cons_of_mem _ (ih hs.2 n k h1 h2)

/-- C6: `createSession` with no supplied title (via `startNewSession`) names
the new session `新的对话 N` where `N` is the smallest positive integer not
among the numbers collected from titles matching the pattern (first gap of
the sorted numbers, or max + 1); the new session goes to the front of the
list and becomes active.  In particular, with exactly `新的对话 1` and
`新的对话 3` present, the next auto-created title is `新的对话 2`. -/
theorem createSession_autoNumbering (st : ChatState) :
    (∃ s : ChatSession,
      (startNewSession st none).1.sessionsStore.sessions = s :: st.sessionsStore.sessions ∧
      (startNewSession st none).1.sessionsStore.activeSessionId = some s.id ∧
      (startNewSession st none).2 = s.id ∧
      s.title = autoTitle (pickNextNumber 1 (collectNumbers st.sessionsStore.sessions))) ∧
    (pickNextNumber 1 (collectNumbers st.sessionsStore.sessions)
        ∉ sessionNumbers st.sessionsStore.sessions) ∧
    (∀ m, 0 < m → m < pickNextNumber 1 (collectNumbers st.sessionsStore.sessions) →
      m ∈ sessionNumbers st.sessionsStore.sessions) ∧
    (createSession
        { sessions := [
            { id := 0, title := "新的对话 1".toList, createdAt := 0, updatedAt := 0,
              messageIds := [] },
            { id := 1, title := "新的对话 3".toList, createdAt := 0, updatedAt := 0,
              messageIds := [] }],
          activeSessionId := none } none 5 7).1.title = "新的对话 2".toList := by
  have hsorted : (collectNumbers st.sessionsStore.sessions).Sorted (· ≤ ·) :=
    List.sorted_insertionSort _ _
  have hperm : ∀ a : Nat, a ∈ collectNumbers st.sessionsStore.sessions ↔
      a ∈ sessionNumbers st.sessionsStore.sessions :=
    fun a => (List.perm_insertionSort _ _).mem_iff
  refine ⟨⟨_, rfl, rfl, rfl, rfl⟩, ?_, ?_, ?_⟩
  · intro hmem
    exact pickNextNumber_not_mem _ hsorted 1 ((hperm _).mpr hmem)
  · intro m hm1 hm2
    exact (hperm m).mp (pickNextNumber_mem _ hsorted 1 m hm1 hm2)
  · decide

@[simp] theorem ensureEntry_abortController (st : ChatState) (sid : Nat) :
    (ensureEntry st sid).abortController = st.abortController := rfl

@[simp] theorem ensureEntry_abortedCtrls (st : ChatState) (sid : Nat) :
    (ensureEntry st sid).abortedCtrls = st.abortedCtrls := rfl

@[simp] theorem ensureEntry_nextCtrl (st : ChatState) (sid : Nat) :
    (ensureEntry st sid).nextCtrl = st.nextCtrl := rfl

@[simp] theorem ensureEntry_nextId (st : ChatState) (sid : Nat) :
    (ensureEntry st sid).nextId = st.nextId := rfl

@[simp] theorem ensureEntry_clock (st : ChatState) (sid : Nat) :
    (ensureEntry st sid).clock = st.clock := rfl

@[simp] theorem ensureEntry_sessionsStore (st : ChatState) (sid : Nat) :
    (ensureEntry st sid).sessionsStore = st.sessionsStore := rfl

@[simp] theorem setActiveSession_abortController (st : ChatState) (sid : Nat) :
    (setActiveSession st sid).abortController = st.abortController := rfl

@[simp] theorem setActiveSession_abortedCtrls (st : ChatState) (sid : Nat) :
    (setActiveSession st sid).abortedCtrls = st.abortedCtrls := rfl

@[simp] theorem setActiveSession_nextCtrl (st : ChatState) (sid : Nat) :
    (setActiveSession st sid).nextCtrl = st.nextCtrl := rfl

@[simp] theorem setActiveSession_nextId (st : ChatState) (sid : Nat) :
    (setActiveSession st sid).nextId = st.nextId := rfl

@[simp] theorem setActiveSession_clock (st : ChatState) (sid : Nat) :
    (setActiveSession st sid).clock = st.clock := rfl

@[simp] theorem buildContextMessages_abortController (st : ChatState) (sid : Nat) :
    (buildContextMessages st sid).1.abortController = st.abortController := rfl

@[simp] theorem buildContextMessages_abortedCtrls (st : ChatState) (sid : Nat) :
    (buildContextMessages st sid).1.abortedCtrls = st.abortedCtrls := rfl

@[simp] theorem buildContextMessages_nextCtrl (st : ChatState) (sid : Nat) :
    (buildContextMessages st sid).1.nextCtrl = st.nextCtrl := rfl

@[simp] theorem buildContextMessages_nextId (st : ChatState) (sid : Nat) :
    (buildContextMessages st sid).1.nextId = st.nextId := rfl

@[simp] theorem buildContextMessages_clock (st : ChatState) (sid : Nat) :
    (buildContextMessages st sid).1.clock = st.clock := rfl

@[simp] theorem buildContextMessages_msgsOf (st : ChatState) (sid : Nat) :
    msgsOf (buildContextMessages st sid).1.messagesBySession sid =
      msgsOf st.messagesBySession sid := by
  have h : (buildContextMessages st sid).1 = ensureEntry (setActiveSession st sid) sid := rfl
  rw [h, ensureEntry_msgsOf]
  rfl

@[simp] theorem buildContextMessages_active (st : ChatState) (sid : Nat) :
    (buildContextMessages st sid).1.sessionsStore.activeSessionId = some sid := rfl

@[simp] theorem appendMessage_nextCtrl (st : ChatState) (sid : Nat) (msg : ChatMessage) :
    (appendMessage st sid msg).nextCtrl = st.nextCtrl := rfl

@[simp] theorem appendMessage_clock (st : ChatState) (sid : Nat) (msg : ChatMessage) :
    (appendMessage st sid msg).clock = st.clock := rfl

@[simp] theorem appendMessage_streamingMessageId (st : ChatState) (sid : Nat)
    (msg : ChatMessage) :
    (appendMessage st sid msg).streamingMessageId = st.streamingMessageId := rfl

@[simp] theorem newController_abortController (st : ChatState) :
    (newController st).1.abortController = some st.nextCtrl := rfl

@[simp] theorem newController_abortedCtrls (st : ChatState) :
    (newController st).1.abortedCtrls = st.abortedCtrls := rfl

@[simp] theorem newController_clock (st : ChatState) :
    (newController st).1.clock = st.clock := rfl

@[simp] theorem abortCurrent_clock (st : ChatState) :
    (abortCurrent st).clock = st.clock := by
  cases h : st.abortController <;> simp [abortCurrent, h]

@[simp] theorem touchSession_abortController (st : ChatState) (sid : Nat) :
    (touchSession st sid).abortController = st.abortController := rfl

@[simp] theorem touchSession_abortedCtrls (st : ChatState) (sid : Nat) :
    (touchSession st sid).abortedCtrls = st.abortedCtrls := rfl

@[simp] theorem touchSession_nextCtrl (st : ChatState) (sid : Nat) :
    (touchSession st sid).nextCtrl = st.nextCtrl := rfl

@[simp] theorem updateMessage_clock (st : ChatState) (sid mid : Nat)
    (f : ChatMessage → ChatMessage) :
    (updateMessage st sid mid f).clock = st.clock := rfl

theorem mem_abortCurrent_abortedCtrls (st : ChatState) (x : Nat)
    (h : x ∈ (abortCurrent st).abortedCtrls) :
    x ∈ st.abortedCtrls ∨ st.abortController = some x := by
  cases hc : st.abortController with
  | none => simp only [abortCurrent, hc] at h; exact Or.inl h
  | some c =>
    simp only [abortCurrent, hc] at h
    rcases List.mem_cons.mp h with rfl | h
    · exact Or.inr rfl
    · exact Or.inl h

/-! ## Streaming drain lemmas -/

@[simp] theorem ctrlAborted_updateMessage (st : ChatState) (sid mid : Nat)
    (f : ChatMessage → ChatMessage) (sig : Option Nat) :
    ctrlAborted (updateMessage st sid mid f) sig = ctrlAborted st sig := by
  cases sig <;> rfl

theorem finishOk_msgs (st : ChatState) (kind : WriterKind) (sid phId : Nat)
    (card : Option AssistantCard) (base : List ChatMessage) (ph : ChatMessage)
    (hmsgs : msgsOf st.messagesBySession sid = base ++ [ph])
    (hid : (ph.id == phId) = true)
    (hbase : ∀ m ∈ base, (m.id == phId) = false) :
    msgsOf (finishOk st kind sid phId card).messagesBySession sid =
      (base ++ [{ ph with status := .sent }]) ++
        cardMsgsAppended card sid st.nextId st.clock := by
  have hset : msgsOf (setMessageStatus st sid phId .sent).messagesBySession sid =
      base ++ [{ ph with status := .sent }] := by
    rw [setMessageStatus, updateMessage_msgsOf, hmsgs,
      updateFirst_append_false _ _ _ _ hbase]
    simp [updateFirst, hid]
  have hcore : ∀ c : AssistantCard,
      msgsOf (appendCardMessage (setMessageStatus st sid phId .sent) sid c).messagesBySession
          sid
        = (base ++ [{ ph with status := .sent }]) ++
          cardMsgsAppended (some c) sid st.nextId st.clock := by
    intro c
    rw [show msgsOf (appendCardMessage (setMessageStatus st sid phId .sent) sid
          c).messagesBySession sid
        = msgsOf (setMessageStatus st sid phId .sent).messagesBySession sid ++
          [⟨st.nextId, sid, .assistant, .card, c.title, st.clock, .sent, some c, none⟩]
      from appendMessage_msgsOf _ _ _, hset]
    rfl
  cases kind with
  | plainSend =>
    cases card with
    | none => exact hset.trans (by simp [cardMsgsAppended])
    | some c => exact hcore c
  | filesSend =>
    cases card with
    | none => exact hset.trans (by simp [cardMsgsAppended])
    | some c => exact hcore c
  | regenerate =>
    cases card with
    | none => exact hset.trans (by simp [cardMsgsAppended])
    | some c => exact hcore c

theorem runGen_drain (kind : WriterKind) (card : Option AssistantCard) (sid phId : Nat)
    (sig : Option Nat) :
    ∀ (rest : List Str) (st : ChatState) (base : List ChatMessage) (ph : ChatMessage),
      ctrlAborted st sig = false →
      msgsOf st.messagesBySession sid = base ++ [ph] →
      (ph.id == phId) = true →
      (∀ m ∈ base, (m.id == phId) = false) →
      rest ≠ [] →
      msgsOf (runGen (st, .awaitChunk kind sid phId sig rest card)
          (List.replicate rest.length .chunk)).1.messagesBySession sid =
        (base ++ [{ ph with content := ph.content ++ rest.flatten, status := .sent }]) ++
          cardMsgsAppended card sid st.nextId st.clock := by
  intro rest
  induction rest with
  | nil => intro st base ph _ _ _ _ hne; exact absurd rfl hne
  | cons c cs ih =>
    intro st base ph habort hmsgs hid hbase _
    have hmsgs' : msgsOf (updateMessage st sid phId
        (fun m => { m with content := m.content ++ c })).messagesBySession sid =
        base ++ [{ ph with content := ph.content ++ c }] := by
      rw [updateMessage_msgsOf, hmsgs, updateFirst_append_false _ _ _ _ hbase]
      simp [updateFirst, hid]
    cases cs with
    | nil =>
      simp only [List.length_cons, List.length_nil, List.replicate, runGen, List.foldl_cons,
        List.foldl_nil, genStep, genChunkStep]
      rw [finishOk_msgs _ kind _ _ card base { ph with content := ph.content ++ c } hmsgs'
        (by simpa using hid) hbase]
      simp
    | cons c2 cs2 =>
      have habort' : ctrlAborted (updateMessage st sid phId
          (fun m => { m with content := m.content ++ c })) sig = false := by
        rw [ctrlAborted_updateMessage]; exact habort
      have hrep : List.replicate (c :: c2 :: cs2).length GenEv.chunk =
          GenEv.chunk :: List.replicate (c2 :: cs2).length GenEv.chunk := by
        simp [List.replicate_succ]
      have hgen : genStep (st, GenPhase.awaitChunk kind sid phId sig (c :: c2 :: cs2) card)
          GenEv.chunk
          = (updateMessage st sid phId (fun m => { m with content := m.content ++ c }),
            GenPhase.awaitChunk kind sid phId sig (c2 :: cs2) card) := by
        simp only [genStep, genChunkStep, habort', Bool.false_eq_true, if_false]
      have hstep : runGen (st, GenPhase.awaitChunk kind sid phId sig (c :: c2 :: cs2) card)
          (GenEv.chunk :: List.replicate (c2 :: cs2).length GenEv.chunk)
          = runGen (updateMessage st sid phId (fun m => { m with content := m.content ++ c }),
            GenPhase.awaitChunk kind sid phId sig (c2 :: cs2) card)
            (List.replicate (c2 :: cs2).length GenEv.chunk) := by
        rw [runGen, List.foldl_cons, hgen]; rfl
      rw [hrep, hstep, ih _ base { ph with content := ph.content ++ c } habort' hmsgs'
        (by simpa using hid) hbase (by simp)]
      simp [List.append_assoc]

/-! ## `sendStart` characterization -/

@[simp] theorem newController_snd (st : ChatState) : (newController st).2 = st.nextCtrl := rfl

theorem sendStart_msgs (st : ChatState) (input : Str) (hinput : trimStr input ≠ []) :
    msgsOf (sendStart st input).1.messagesBySession (sendTargetSession st) =
      (msgsOf (ensureSession st).1.messagesBySession (sendTargetSession st) ++
        [{ id := (ensureSession st).1.nextId, sessionId := (ensureSession st).2, role := .user,
           msgType := .text, content := trimStr input,
           createdAt := (ensureSession st).1.clock, status := .sent }]) ++
        [{ id := (ensureSession st).1.nextId + 1, sessionId := (ensureSession st).2,
           role := .assistant, msgType := .text, content := [],
           createdAt := (ensureSession st).1.clock, status := .streaming }] := by
  simp only [sendStart, if_neg hinput, sendTargetSession]
  simp [List.append_assoc]

theorem sendStart_phase (st : ChatState) (input : Str) (hinput : trimStr input ≠ []) :
    (sendStart st input).2 =
      .awaitCompletion .plainSend (sendTargetSession st) ((ensureSession st).1.nextId + 1)
        st.nextCtrl := by
  simp only [sendStart, if_neg hinput, sendTargetSession]
  simp [newController_snd, ensureSession_nextCtrl]

theorem sendStart_abortController (st : ChatState) (input : Str)
    (hinput : trimStr input ≠ []) :
    (sendStart st input).1.abortController = some st.nextCtrl := by
  simp only [sendStart, if_neg hinput]
  simp [ensureSession_nextCtrl]

theorem sendStart_abortedCtrls (st : ChatState) (input : Str) (hinput : trimStr input ≠ [])
    (x : Nat) (hx : x ∈ (sendStart st input).1.abortedCtrls) :
    x ∈ st.abortedCtrls ∨ st.abortController = some x := by
  simp only [sendStart, if_neg hinput, newController_abortedCtrls] at hx
  rcases mem_abortCurrent_abortedCtrls _ _ hx with h | h
  · left
    rw [← ensureSession_abortedCtrls st]
    simpa using h
  · right
    rw [← ensureSession_abortController st]
    simpa using h

/-- The whole success path of one uninterrupted generation, from the
completion resolution through the last chunk: the target message ends
`sent` with the full content, everything before it untouched, and the card
message (when the response carries one) appended after the session list. -/
theorem runGen_complete (A : ChatState) (kind : WriterKind) (sid phId : Nat) (content : Str)
    (card : Option AssistantCard) (base : List ChatMessage) (ph : ChatMessage)
    (hmsgs : msgsOf A.messagesBySession sid = base ++ [ph])
    (hid : (ph.id == phId) = true)
    (hbase : ∀ m ∈ base, (m.id == phId) = false)
    (hreset : ({ ph with content := [], status := .streaming } : ChatMessage) = ph)
    (hsig : ctrlAborted A A.abortController = false) :
    msgsOf (runGen (genComplete A kind sid phId (.ok content card))
        (List.replicate (streamTextChunks content (some 4)).length .chunk)).1.messagesBySession
        sid
      = (base ++ [{ ph with content := content, status := .sent }]) ++
        cardMsgsAppended card sid A.nextId A.clock := by
  have hflat := streamTextChunks_flatten content (some 4)
  have hpc : ph.content = [] := by
    have := congrArg ChatMessage.content hreset
    simpa using this.symm
  have hmsgsU : msgsOf (updateMessage A sid phId
      (fun m => { m with content := [], status := .streaming })).messagesBySession sid =
      base ++ [ph] := by
    rw [updateMessage_msgsOf, hmsgs, updateFirst_append_false _ _ _ _ hbase]
    simp [updateFirst, hid, hreset]
  simp only [genComplete, updateMessage_abortController]
  cases hch : streamTextChunks content (some 4) with
  | nil =>
    rw [hch] at hflat
    simp only [List.flatten_nil] at hflat
    simp only [List.length_nil, List.replicate, runGen, List.foldl_nil]
    rw [finishOk_msgs _ kind _ _ card base ph hmsgsU hid hbase]
    rw [← hflat]
    simp [hpc]
  | cons c cs =>
    have habortFalse : ctrlAborted (updateMessage A sid phId
        (fun m => { m with content := [], status := .streaming })) A.abortController
        = false := by
      rw [ctrlAborted_updateMessage]
      exact hsig
    rw [hch] at hflat
    simp only [habortFalse, Bool.false_eq_true, if_false]
    rw [runGen_drain kind card _ _ _ (c :: cs) _ _ _ habortFalse hmsgsU hid hbase (by simp)]
    rw [hpc, hflat]
    simp

/-! ## `regenStart` characterization -/

@[simp] theorem setMessageStatus_sessionsStore (st : ChatState) (sid mid : Nat)
    (status : MessageStatus) :
    (setMessageStatus st sid mid status).sessionsStore = st.sessionsStore := rfl

@[simp] theorem setMessageStatus_nextId (st : ChatState) (sid mid : Nat)
    (status : MessageStatus) :
    (setMessageStatus st sid mid status).nextId = st.nextId := rfl

@[simp] theorem setMessageStatus_nextCtrl (st : ChatState) (sid mid : Nat)
    (status : MessageStatus) :
    (setMessageStatus st sid mid status).nextCtrl = st.nextCtrl := rfl

@[simp] theorem setMessageStatus_clock (st : ChatState) (sid mid : Nat)
    (status : MessageStatus) :
    (setMessageStatus st sid mid status).clock = st.clock := rfl

@[simp] theorem setMessageStatus_abortController (st : ChatState) (sid mid : Nat)
    (status : MessageStatus) :
    (setMessageStatus st sid mid status).abortController = st.abortController := rfl

@[simp] theorem setMessageStatus_abortedCtrls (st : ChatState) (sid mid : Nat)
    (status : MessageStatus) :
    (setMessageStatus st sid mid status).abortedCtrls = st.abortedCtrls := rfl

@[simp] theorem updateMessage_nextCtrl (st : ChatState) (sid mid : Nat)
    (f : ChatMessage → ChatMessage) :
    (updateMessage st sid mid f).nextCtrl = st.nextCtrl := rfl

@[simp] theorem abortCurrent_abortController (st : ChatState) :
    (abortCurrent st).abortController = st.abortController := by
  cases h : st.abortController <;> simp [abortCurrent, h]

/-- What the first segment of `regenerateAssistantMessage` does when the
target is located with the session list decomposed as `P ++ target :: C`
(`P` free of the target id and holding a user message, `C` the contiguous
stale-card run): it removes `C`, resyncs `messageIds` when `C` is
nonempty, resets the target to an empty streaming message, installs a fresh
controller and suspends on the single-turn completion request. -/
theorem regenStart_located (st : ChatState) (sid mid : Nat) (P C : List ChatMessage)
    (target u : ChatMessage)
    (hactive : st.sessionsStore.activeSessionId = some sid)
    (hlist : msgsOf st.messagesBySession sid = P ++ target :: C)
    (htid : (target.id == mid) = true)
    (hP : ∀ m ∈ P, (m.id == mid) = false)
    (hu : u ∈ P) (hurole : (u.role == ChatRole.user) = true)
    (hC : ∀ m ∈ C, m.role = .assistant ∧ m.msgType = .card) :
    (regenStart st mid).2 = .awaitCompletion .regenerate sid mid st.nextCtrl ∧
    msgsOf (regenStart st mid).1.messagesBySession sid =
      P ++ [{ target with content := [], status := .streaming }] ∧
    (regenStart st mid).1.nextId = st.nextId ∧
    (regenStart st mid).1.clock = st.clock ∧
    (regenStart st mid).1.abortController = some st.nextCtrl ∧
    (∀ x ∈ (regenStart st mid).1.abortedCtrls,
      x ∈ st.abortedCtrls ∨ st.abortController = some x) ∧
    (C = [] → (regenStart st mid).1.sessionsStore.sessions = st.sessionsStore.sessions) ∧
    (C ≠ [] → (regenStart st mid).1.sessionsStore.sessions =
      replaceMessageIds st.sessionsStore.sessions sid
        ((P ++ [target]).map (fun m => m.id)) st.clock) := by
  have hfindIdx : findIndexFrom (fun m => m.id == mid) (P ++ target :: C) = some P.length := by
    rw [findIndexFrom_prefix_false _ _ _ hP,
      findIndexFrom_cons_true (fun m => m.id == mid) target C htid]
    simp
  have htake : (P ++ target :: C).take P.length = P := List.take_left P (target :: C)
  have hprevSome : ∃ v, (((P ++ target :: C).take P.length).reverse.find?
      (fun m => m.role == ChatRole.user)) = some v := by
    rw [htake]
    refine Option.isSome_iff_exists.mp ?_
    rw [List.find?_isSome]
    exact ⟨u, List.mem_reverse.mpr hu, hurole⟩
  obtain ⟨v, hv⟩ := hprevSome
  have hdropC : (P ++ target :: C).drop (P.length + 1) = C := by
    rw [show P ++ target :: C = (P ++ [target]) ++ C by simp,
      show P.length + 1 = (P ++ [target]).length by simp, List.drop_left]
  have hcount : countLeadingCards ((P ++ target :: C).drop (P.length + 1)) = C.length := by
    rw [hdropC]
    exact countLeadingCards_all C hC
  have htake1 : (P ++ target :: C).take (P.length + 1) = P ++ [target] := by
    rw [show P ++ target :: C = (P ++ [target]) ++ C by simp,
      show P.length + 1 = (P ++ [target]).length by simp, List.take_left]
  have hupd2 : updateFirst (fun m => m.id == mid) (fun m => { m with content := [] })
      (updateFirst (fun m => m.id == mid) (fun m => { m with status := .streaming })
        (P ++ [target])) =
      P ++ [{ target with content := [], status := .streaming }] := by
    rw [updateFirst_append_false _ _ _ _ hP, updateFirst_append_false _ _ _ _ hP]
    simp [updateFirst, htid]
  cases hCnil : C with
  | nil =>
    subst hCnil
    have hzero : ¬ 0 < countLeadingCards ((P ++ target :: ([] : List ChatMessage)).drop
        (P.length + 1)) := by
      rw [hdropC]
      simp [countLeadingCards]
    simp only [regenStart, hactive, hlist, hfindIdx, hv, hzero, if_false]
    refine ⟨by simp, ?_, by simp, by simp, by simp, ?_, fun _ => by simp, 
      fun hne => absurd rfl hne⟩
    · simp only [newController_messages, abortCurrent_messages, updateMessage_msgsOf,
        setMessageStatus, ensureEntry_msgsOf, hlist]
      exact hupd2
    · intro x hx
      simp only [newController_abortedCtrls] at hx
      rcases mem_abortCurrent_abortedCtrls _ _ hx with h | h
      · left
        simpa using h
      · right
        simpa using h
  | cons c0 cs0 =>
    have hCne : C ≠ [] := by rw [hCnil]; simp
    have hpos : 0 < countLeadingCards ((P ++ target :: C).drop (P.length + 1)) := by
      rw [hcount, hCnil]
      simp
    have hlen : P.length + 1 + C.length = (P ++ target :: C).length := by
      simp
      omega
    have hnewList : (P ++ target :: C).take (P.length + 1) ++
        (P ++ target :: C).drop (P.length + 1 +
          countLeadingCards ((P ++ target :: C).drop (P.length + 1))) = P ++ [target] := by
      rw [hcount, htake1, hlen, List.drop_length, List.append_nil]
    simp only [regenStart, hactive, hlist, hfindIdx, hv, hpos, if_true, hnewList]
    refine ⟨by simp, ?_, by simp, by simp, by simp, ?_,
      fun h => absurd h (List.cons_ne_nil c0 cs0), fun _ => ?_⟩
    · simp only [newController_messages, abortCurrent_messages, updateMessage_msgsOf,
        setMessageStatus, msgsOf_putMsgs_self]
      exact hupd2
    · intro x hx
      simp only [newController_abortedCtrls] at hx
      rcases mem_abortCurrent_abortedCtrls _ _ hx with h | h
      · left
        simpa using h
      · right
        simpa using h
    · simp

theorem runGen_finished (st : ChatState) (b : Bool) (evs : List GenEv) :
    runGen (st, .finished b) evs = (st, .finished b) := by
  induction evs with
  | nil => rfl
  | cons e es ih =>
    rw [runGen, List.foldl_cons]
    have hstep : genStep (st, GenPhase.finished b) e = (st, GenPhase.finished b) := by
      cases e <;> rfl
    rw [hstep, ← runGen, ih]

theorem finishOk_regen_sessions_some (st : ChatState) (sid phId : Nat) (c : AssistantCard) :
    (finishOk st .regenerate sid phId (some c)).sessionsStore.sessions =
      appendMessageId st.sessionsStore.sessions sid st.nextId st.clock := rfl

theorem runGen_drain_sessions_regen (sid phId : Nat) (sig : Option Nat) (c : AssistantCard) :
    ∀ (rest : List Str) (st : ChatState), rest ≠ [] →
      (runGen (st, .awaitChunk .regenerate sid phId sig rest (some c))
          (List.replicate rest.length .chunk)).1.sessionsStore.sessions =
        appendMessageId st.sessionsStore.sessions sid st.nextId st.clock := by
  intro rest
  induction rest with
  | nil => intro st hne; exact absurd rfl hne
  | cons c1 cs ih =>
    intro st _
    cases cs with
    | nil =>
      simp only [List.length_cons, List.length_nil, List.replicate, runGen, List.foldl_cons,
        List.foldl_nil, genStep, genChunkStep]
      rw [finishOk_regen_sessions_some]
      simp
    | cons c2 cs2 =>
      have hrep : List.replicate (c1 :: c2 :: cs2).length GenEv.chunk =
          GenEv.chunk :: List.replicate (c2 :: cs2).length GenEv.chunk := by
        simp [List.replicate_succ]
      rw [hrep, runGen, List.foldl_cons, ← runGen]
      by_cases hab : ctrlAborted st sig = true
      · have hstep : genStep (st, GenPhase.awaitChunk .regenerate sid phId sig
            (c1 :: c2 :: cs2) (some c)) GenEv.chunk
            = (finishOk (updateMessage st sid phId
                (fun m => { m with content := m.content ++ c1 })) .regenerate sid phId
                (some c), .finished false) := by
          have hab2 : ctrlAborted (updateMessage st sid phId
              (fun m => { m with content := m.content ++ c1 })) sig = true := by
            rw [ctrlAborted_updateMessage]; exact hab
          simp only [genStep, genChunkStep, hab2, if_true]
        rw [hstep, runGen_finished, finishOk_regen_sessions_some]
        simp
      · have hab2 : ctrlAborted (updateMessage st sid phId
            (fun m => { m with content := m.content ++ c1 })) sig = false := by
          rw [ctrlAborted_updateMessage]
          exact Bool.not_eq_true _ |>.mp hab
        have hstep : genStep (st, GenPhase.awaitChunk .regenerate sid phId sig
            (c1 :: c2 :: cs2) (some c)) GenEv.chunk
            = (updateMessage st sid phId (fun m => { m with content := m.content ++ c1 }),
              GenPhase.awaitChunk .regenerate sid phId sig (c2 :: cs2) (some c)) := by
          simp only [genStep, genChunkStep, hab2, Bool.false_eq_true, if_false]
        rw [hstep, ih _ (by simp)]
        simp

theorem runGen_complete_sessions_regen (A : ChatState) (sid phId : Nat) (content : Str)
    (c : AssistantCard) :
    (runGen (genComplete A .regenerate sid phId (.ok content (some c)))
        (List.replicate (streamTextChunks content (some 4)).length
          .chunk)).1.sessionsStore.sessions =
      appendMessageId A.sessionsStore.sessions sid A.nextId A.clock := by
  simp only [genComplete, updateMessage_abortController]
  cases hch : streamTextChunks content (some 4) with
  | nil =>
    simp only [List.length_nil, List.replicate, runGen, List.foldl_nil]
    rw [finishOk_regen_sessions_some]
    simp
  | cons c1 cs =>
    by_cases hab : ctrlAborted (updateMessage A sid phId
        (fun m => { m with content := [], status := .streaming })) A.abortController = true
    · simp only [hab, if_true]
      rw [runGen_finished, finishOk_regen_sessions_some]
      simp
    · have hab2 : ctrlAborted (updateMessage A sid phId
          (fun m => { m with content := [], status := .streaming })) A.abortController
          = false := Bool.not_eq_true _ |>.mp hab
      simp only [hab2, Bool.false_eq_true, if_false]
      rw [runGen_drain_sessions_regen sid phId A.abortController c (c1 :: cs) _ (by simp)]
      simp

/-! ## C3: card placement after regeneration -/

/-- C3 (amended): for a successful regeneration whose response carries a
card, the new `assistant`/`card` message is appended at the end of the
session's message list and `messageIds`; when the target message is the
last message of the session once its stale card run is removed (nothing
follows the contiguous `assistant`/`card` run after the target), this
places the card immediately after the regenerated target in both, restoring
the card-contiguity invariant — but when later messages exist, the card
lands after them instead (see the counterexample). -/
theorem regenerate_card_appended (st : ChatState) (sid mid : Nat)
    (P C : List ChatMessage) (target : ChatMessage) (content : Str) (card : AssistantCard)
    (sess : ChatSession)
    (hactive : st.sessionsStore.activeSessionId = some sid)
    (hlist : msgsOf st.messagesBySession sid = P ++ target :: C)
    (htid : target.id = mid)
    (hP : ∀ m ∈ P, m.id ≠ mid)
    (hprev : ∃ u ∈ P, u.role = .user)
    (hC : ∀ m ∈ C, m.role = .assistant ∧ m.msgType = .card)
    (hsess : st.sessionsStore.sessions.find? (fun s => s.id == sid) = some sess)
    (hmids : sess.messageIds = (P ++ target :: C).map (fun m => m.id))
    (hids : ∀ m ∈ allMsgs st, m.id < st.nextId)
    (hctrl : ∀ x ∈ st.abortedCtrls, x < st.nextCtrl)
    (hcur : ∀ x, st.abortController = some x → x < st.nextCtrl) :
    msgsOf (regenerateAssistantMessage st mid
        (.ok content (some card))).messagesBySession sid
      = P ++ [{ target with content := content, status := .sent },
          ⟨st.nextId, sid, .assistant, .card, card.title, st.clock, .sent, some card, none⟩] ∧
    ((regenerateAssistantMessage st mid
        (.ok content (some card))).sessionsStore.sessions.find?
        (fun s => s.id == sid)).map (fun s => s.messageIds) =
      some ((P ++ [target]).map (fun m => m.id) ++ [st.nextId]) := by
  obtain ⟨u, hu, hurole⟩ := hprev
  have hPbeq : ∀ m ∈ P, (m.id == mid) = false := fun m hm => by simp [hP m hm]
  obtain ⟨hphase, hmsgs1, hnid1, hclk1, hctrl1, haborted1, hsessNil, hsessCons⟩ :=
    regenStart_located st sid mid P C target u hactive hlist (by simp [htid]) hPbeq hu
      (by simp [hurole]) hC
  have hnotmem : st.nextId ∉ (P ++ [target]).map (fun m => m.id) := by
    intro hmem
    simp only [List.mem_map] at hmem
    obtain ⟨m, hm, hideq⟩ := hmem
    have hmm : m ∈ msgsOf st.messagesBySession sid := by
      rw [hlist]
      rcases List.mem_append.mp hm with h | h
      · exact List.mem_append.mpr (Or.inl h)
      · simp only [List.mem_singleton] at h
        subst h
        exact List.mem_append.mpr (Or.inr (List.mem_cons_self _ _))
    have := hids m (mem_flat_of_mem_msgsOf _ _ _ hmm)
    omega
  have hrun : regenerateAssistantMessage st mid (.ok content (some card))
      = (runGen (genStep (regenStart st mid) (.complete (.ok content (some card))))
          (List.replicate (streamTextChunks content (some 4)).length .chunk)).1 := rfl
  have hgenstep : genStep (regenStart st mid) (.complete (.ok content (some card)))
      = genComplete (regenStart st mid).1 .regenerate sid mid
          (.ok content (some card)) := by
    conv_lhs =>
      rw [show regenStart st mid = ((regenStart st mid).1, (regenStart st mid).2) from rfl]
    rw [hphase]
    rfl
  have hsig : ctrlAborted (regenStart st mid).1 (regenStart st mid).1.abortController
      = false := by
    rw [hctrl1]
    have hnot : st.nextCtrl ∉ (regenStart st mid).1.abortedCtrls := by
      intro hmem
      rcases haborted1 _ hmem with h | h
      · exact absurd (hctrl _ h) (by omega)
      · exact absurd (hcur _ h) (by omega)
    simp [ctrlAborted, hnot]
  constructor
  · rw [hrun, hgenstep,
      runGen_complete _ .regenerate sid mid content (some card) P
        { target with content := [], status := .streaming } hmsgs1 (by simp [htid]) hPbeq
        rfl hsig, hnid1, hclk1]
    simp [cardMsgsAppended]
  · rw [hrun, hgenstep, runGen_complete_sessions_regen, hnid1, hclk1]
    cases hCnil : C with
    | nil =>
      subst hCnil
      rw [hsessNil rfl,
        find?_appendMessageId _ _ _ _ sess hsess (by rw [hmids]; exact hnotmem)]
      simp [hmids]
    | cons c0 cs0 =>
      rw [hsessCons (by rw [hCnil]; simp),
        find?_appendMessageId _ _ _ _
          { sess with
            messageIds := (P ++ [target]).map (fun m => m.id)
            updatedAt := st.clock }
          (find?_replaceMessageIds _ _ _ _ _ hsess) (by simpa using hnotmem)]
      simp

/-! ## Frame lemmas for regeneration (C8) -/

theorem get?_decomp (l : List α) (i : Nat) (x : α) (h : l.get? i = some x) :
    l = l.take i ++ x :: l.drop (i + 1) := by
  induction l generalizing i with
  | nil => simp [List.get?] at h
  | cons y ys ih =>
    cases i with
    | zero =>
      simp only [List.get?] at h
      cases h
      simp
    | succ n =>
      simp only [List.get?] at h
      have := ih n h
      simp only [List.take, List.drop, List.cons_append]
      exact congrArg (y :: ·) this

theorem mem_take_get? (l : List α) (i : Nat) (x : α) (h : x ∈ l.take i) :
    ∃ k, k < i ∧ l.get? k = some x := by
  induction l generalizing i with
  | nil => simp at h
  | cons y ys ih =>
    cases i with
    | zero => simp at h
    | succ n =>
      simp only [List.take, List.mem_cons] at h
      rcases h with h | h
      · exact ⟨0, Nat.succ_pos n, by simp [h]⟩
      · obtain ⟨k, hk, hget⟩ := ih n h
        exact ⟨k + 1, by omega, by simpa using hget⟩

theorem prefixShape_updateMessage (st : ChatState) (sid mid : Nat)
    (pre rest : List ChatMessage) (x : ChatMessage) (f : ChatMessage → ChatMessage)
    (hpre : ∀ m ∈ pre, (m.id == mid) = false)
    (hm : msgsOf st.messagesBySession sid = pre ++ x :: rest)
    (hx : (x.id == mid) = true) :
    msgsOf (updateMessage st sid mid f).messagesBySession sid = pre ++ f x :: rest := by
  rw [updateMessage_msgsOf, hm, updateFirst_append_false _ _ _ _ hpre]
  simp [updateFirst, hx]

theorem finishOk_prefixShape (st : ChatState) (kind : WriterKind) (sid mid : Nat)
    (card : Option AssistantCard) (pre rest : List ChatMessage) (x : ChatMessage)
    (hpre : ∀ m ∈ pre, (m.id == mid) = false)
    (hm : msgsOf st.messagesBySession sid = pre ++ x :: rest)
    (hx : (x.id == mid) = true) :
    ∃ rest2, msgsOf (finishOk st kind sid mid card).messagesBySession sid =
      pre ++ { x with status := .sent } :: rest2 := by
  have hset : msgsOf (setMessageStatus st sid mid .sent).messagesBySession sid =
      pre ++ { x with status := .sent } :: rest :=
    prefixShape_updateMessage st sid mid pre rest x _ hpre hm hx
  have hcore : ∀ c : AssistantCard,
      msgsOf (appendCardMessage (setMessageStatus st sid mid .sent) sid c).messagesBySession
          sid
        = pre ++ { x with status := .sent } ::
            (rest ++ [⟨st.nextId, sid, .assistant, .card, c.title, st.clock, .sent,
              some c, none⟩]) := by
    intro c
    rw [show msgsOf (appendCardMessage (setMessageStatus st sid mid .sent) sid
          c).messagesBySession sid
        = msgsOf (setMessageStatus st sid mid .sent).messagesBySession sid ++
          [⟨st.nextId, sid, .assistant, .card, c.title, st.clock, .sent, some c, none⟩]
      from appendMessage_msgsOf _ _ _, hset]
    simp
  cases kind with
  | plainSend =>
    cases card with
    | none => exact ⟨rest, hset⟩
    | some c => exact ⟨_, hcore c⟩
  | filesSend =>
    cases card with
    | none => exact ⟨rest, hset⟩
    | some c => exact ⟨_, hcore c⟩
  | regenerate =>
    cases card with
    | none => exact ⟨rest, hset⟩
    | some c => exact ⟨_, hcore c⟩

theorem finishErr_prefixShape (st : ChatState) (kind : WriterKind) (sid mid : Nat)
    (pre rest : List ChatMessage) (x : ChatMessage)
    (hpre : ∀ m ∈ pre, (m.id == mid) = false)
    (hm : msgsOf st.messagesBySession sid = pre ++ x :: rest)
    (hx : (x.id == mid) = true) :
    msgsOf (finishErr st kind sid mid).1.messagesBySession sid =
      pre ++ { x with status := .error } :: rest := by
  have hset : msgsOf (setMessageStatus st sid mid .error).messagesBySession sid =
      pre ++ { x with status := .error } :: rest :=
    prefixShape_updateMessage st sid mid pre rest x _ hpre hm hx
  cases kind with
  | plainSend => exact hset
  | filesSend => exact hset
  | regenerate => exact hset

theorem genStep_prefix (pre : List ChatMessage) (sid mid : Nat)
    (hpre : ∀ m ∈ pre, (m.id == mid) = false)
    (cfg : ChatState × GenPhase) (ev : GenEv)
    (hph : phaseTargets sid mid cfg.2)
    (hpi : ∃ x rest, msgsOf cfg.1.messagesBySession sid = pre ++ x :: rest ∧
      (x.id == mid) = true) :
    phaseTargets sid mid (genStep cfg ev).2 ∧
    ∃ x rest, msgsOf (genStep cfg ev).1.messagesBySession sid = pre ++ x :: rest ∧
      (x.id == mid) = true := by
  obtain ⟨s, ph⟩ := cfg
  obtain ⟨x, rest, hm, hx⟩ := hpi
  cases ph with
  | readySend input => exact absurd hph id
  | finished b =>
    cases ev with
    | complete res => exact ⟨trivial, x, rest, hm, hx⟩
    | chunk => exact ⟨trivial, x, rest, hm, hx⟩
  | awaitCompletion kind s2 p2 c =>
    obtain ⟨hs2, hp2⟩ := hph
    have hs3 : sid = s2 := hs2.symm
    have hp3 : mid = p2 := hp2.symm
    subst hs3
    subst hp3
    cases ev with
    | chunk => exact ⟨⟨rfl, rfl⟩, x, rest, hm, hx⟩
    | complete res =>
      have hgs : genStep (s, GenPhase.awaitCompletion kind sid mid c) (GenEv.complete res)
          = genComplete s kind sid mid res := rfl
      rw [hgs]
      cases res with
      | err =>
        refine ⟨trivial, { x with status := .error }, rest, ?_, by simpa using hx⟩
        exact finishErr_prefixShape s kind sid mid pre rest x hpre hm hx
      | ok content card =>
        have hreset : msgsOf (updateMessage s sid mid
            (fun m => { m with content := [], status := .streaming })).messagesBySession sid
            = pre ++ { x with content := [], status := .streaming } :: rest :=
          prefixShape_updateMessage s sid mid pre rest x _ hpre hm hx
        have hxr : (({ x with content := [], status := .streaming } : ChatMessage).id == mid)
            = true := by simpa using hx
        simp only [genComplete]
        cases hch : streamTextChunks content (some 4) with
        | nil =>
          obtain ⟨rest2, hfin⟩ := finishOk_prefixShape _ kind sid mid card pre rest _ hpre
            hreset hxr
          exact ⟨trivial, _, rest2, hfin, by simpa using hx⟩
        | cons c1 cs =>
          by_cases hab : ctrlAborted (updateMessage s sid mid
              (fun m => { m with content := [], status := .streaming }))
              (updateMessage s sid mid
                (fun m => { m with content := [], status := .streaming })).abortController
              = true
          · simp only [hab, if_true]
            obtain ⟨rest2, hfin⟩ := finishOk_prefixShape _ kind sid mid card pre rest _ hpre
              hreset hxr
            exact ⟨trivial, _, rest2, hfin, by simpa using hx⟩
          · simp only [eq_false_of_ne_true hab, Bool.false_eq_true, if_false]
            exact ⟨⟨rfl, rfl⟩, _, rest, hreset, hxr⟩
  | awaitChunk kind s2 p2 sig chunks card =>
    obtain ⟨hs2, hp2⟩ := hph
    have hs3 : sid = s2 := hs2.symm
    have hp3 : mid = p2 := hp2.symm
    subst hs3
    subst hp3
    cases ev with
    | complete res => exact ⟨⟨rfl, rfl⟩, x, rest, hm, hx⟩
    | chunk =>
      have hgs : genStep (s, GenPhase.awaitChunk kind sid mid sig chunks card) GenEv.chunk
          = genChunkStep s kind sid mid sig chunks card := rfl
      rw [hgs]
      cases chunks with
      | nil =>
        obtain ⟨rest2, hfin⟩ := finishOk_prefixShape s kind sid mid card pre rest x hpre hm hx
        exact ⟨trivial, _, rest2, hfin, by simpa using hx⟩
      | cons c1 cs =>
        have happ : msgsOf (updateMessage s sid mid
            (fun m => { m with content := m.content ++ c1 })).messagesBySession sid
            = pre ++ { x with content := x.content ++ c1 } :: rest :=
          prefixShape_updateMessage s sid mid pre rest x _ hpre hm hx
        have hxa : (({ x with content := x.content ++ c1 } : ChatMessage).id == mid)
            = true := by simpa using hx
        simp only [genChunkStep]
        cases cs with
        | nil =>
          obtain ⟨rest2, hfin⟩ := finishOk_prefixShape _ kind sid mid card pre rest _ hpre
            happ hxa
          exact ⟨trivial, _, rest2, hfin, by simpa using hx⟩
        | cons c2 cs2 =>
          by_cases hab : ctrlAborted (updateMessage s sid mid
              (fun m => { m with content := m.content ++ c1 })) sig = true
          · simp only [hab, if_true]
            obtain ⟨rest2, hfin⟩ := finishOk_prefixShape _ kind sid mid card pre rest _ hpre
              happ hxa
            exact ⟨trivial, _, rest2, hfin, by simpa using hx⟩
          · simp only [eq_false_of_ne_true hab, Bool.false_eq_true, if_false]
            exact ⟨⟨rfl, rfl⟩, _, rest, happ, hxa⟩

theorem runGen_prefix_frame (pre : List ChatMessage) (sid mid : Nat)
    (hpre : ∀ m ∈ pre, (m.id == mid) = false) :
    ∀ (evs : List GenEv) (cfg : ChatState × GenPhase),
      phaseTargets sid mid cfg.2 →
      (∃ x rest, msgsOf cfg.1.messagesBySession sid = pre ++ x :: rest ∧
        (x.id == mid) = true) →
      ∃ x rest, msgsOf (runGen cfg evs).1.messagesBySession sid = pre ++ x :: rest ∧
        (x.id == mid) = true := by
  intro evs
  induction evs with
  | nil => intro cfg _ hpi; exact hpi
  | cons e es ih =>
    intro cfg hph hpi
    rw [runGen, List.foldl_cons, ← runGen]
    obtain ⟨hph2, hpi2⟩ := genStep_prefix pre sid mid hpre cfg e hph hpi
    exact ih _ hph2 hpi2

theorem regenStart_prefix (st : ChatState) (sid mid : Nat)
    (pre rest : List ChatMessage) (target v : ChatMessage)
    (hactive : st.sessionsStore.activeSessionId = some sid)
    (hlist : msgsOf st.messagesBySession sid = pre ++ target :: rest)
    (htid : (target.id == mid) = true)
    (hpre : ∀ m ∈ pre, (m.id == mid) = false)
    (hv : pre.reverse.find? (fun m => m.role == ChatRole.user) = some v) :
    phaseTargets sid mid (regenStart st mid).2 ∧
    ∃ x rest2, msgsOf (regenStart st mid).1.messagesBySession sid = pre ++ x :: rest2 ∧
      (x.id == mid) = true := by
  have hfindIdx : findIndexFrom (fun m => m.id == mid) (pre ++ target :: rest)
      = some pre.length := by
    rw [findIndexFrom_prefix_false _ _ _ hpre,
      findIndexFrom_cons_true (fun m => m.id == mid) target rest htid]
    simp
  have htake : (pre ++ target :: rest).take pre.length = pre := List.take_left pre (target :: rest)
  have hvG : ((pre ++ target :: rest).take pre.length).reverse.find?
      (fun m => m.role == ChatRole.user) = some v := by
    rw [htake]
    exact hv
  have hdropR : (pre ++ target :: rest).drop (pre.length + 1) = rest := by
    rw [show pre ++ target :: rest = (pre ++ [target]) ++ rest by simp,
      show pre.length + 1 = (pre ++ [target]).length by simp, List.drop_left]
  have htake1 : (pre ++ target :: rest).take (pre.length + 1) = pre ++ [target] := by
    rw [show pre ++ target :: rest = (pre ++ [target]) ++ rest by simp,
      show pre.length + 1 = (pre ++ [target]).length by simp, List.take_left]
  have hupd2 : ∀ R : List ChatMessage,
      updateFirst (fun m => m.id == mid) (fun m => { m with content := [] })
        (updateFirst (fun m => m.id == mid) (fun m => { m with status := .streaming })
          (pre ++ target :: R)) =
      pre ++ { target with content := [], status := .streaming } :: R := by
    intro R
    rw [updateFirst_append_false _ _ _ _ hpre, updateFirst_append_false _ _ _ _ hpre]
    simp [updateFirst, htid]
  by_cases hposn : 0 < countLeadingCards ((pre ++ target :: rest).drop (pre.length + 1))
  · have hnewList : (pre ++ target :: rest).take (pre.length + 1) ++
        (pre ++ target :: rest).drop (pre.length + 1 +
          countLeadingCards ((pre ++ target :: rest).drop (pre.length + 1))) =
        pre ++ target :: rest.drop
          (countLeadingCards ((pre ++ target :: rest).drop (pre.length + 1))) := by
      rw [htake1, hdropR, ← List.drop_drop, hdropR]
      simp
    simp only [regenStart, hactive, hlist, hfindIdx, hvG, hposn, if_true, hnewList]
    refine ⟨⟨rfl, rfl⟩, { target with content := [], status := .streaming },
      rest.drop (countLeadingCards ((pre ++ target :: rest).drop (pre.length + 1))), ?_,
      by simpa using htid⟩
    simp only [newController_messages, abortCurrent_messages, updateMessage_msgsOf,
      setMessageStatus, msgsOf_putMsgs_self]
    exact hupd2 _
  · simp only [regenStart, hactive, hlist, hfindIdx, hvG, hposn, if_false]
    refine ⟨⟨rfl, rfl⟩, { target with content := [], status := .streaming }, rest, ?_,
      by simpa using htid⟩
    simp only [newController_messages, abortCurrent_messages, updateMessage_msgsOf,
      setMessageStatus, ensureEntry_msgsOf, hlist]
    exact hupd2 rest

theorem get?_some_lt (l : List α) (i : Nat) (x : α) (h : l.get? i = some x) :
    i < l.length := by
  induction l generalizing i with
  | nil => simp [List.get?] at h
  | cons y ys ih =>
    cases i with
    | zero => simp
    | succ n =>
      simp only [List.get?] at h
      have := ih n h
      simp only [List.length_cons]
      omega

theorem get?_take_lt (l : List α) (n k : Nat) (h : k < n) :
    (l.take n).get? k = l.get? k := by
  induction l generalizing n k with
  | nil => simp
  | cons y ys ih =>
    cases n with
    | zero => omega
    | succ m =>
      cases k with
      | zero => simp [List.take, List.get?]
      | succ k2 =>
        simp only [List.take, List.get?]
        exact ih m k2 (by omega)

theorem get?_append_lt (l1 l2 : List α) (k : Nat) (h : k < l1.length) :
    (l1 ++ l2).get? k = l1.get? k := by
  induction l1 generalizing k with
  | nil => simp at h
  | cons y ys ih =>
    cases k with
    | zero => simp [List.get?]
    | succ k2 =>
      simp only [List.cons_append, List.get?]
      exact ih k2 (by simpa using Nat.lt_of_succ_lt_succ h)

/-- C8: a regeneration of an assistant message in the active session never
touches any message positioned strictly before the located nearest-preceding
user message, and never changes that user message's own content, at every
point of the flow — `evs` ranges over all partial and complete resolution
sequences, covering success, failure (the completion rejecting) and
cancellation (the captured signal turning aborted mid-stream). -/
theorem regenerate_frame (st : ChatState) (mid sid index j : Nat) (evs : List GenEv)
    (hactive : st.sessionsStore.activeSessionId = some sid)
    (hfind : findIndexFrom (fun m => m.id == mid) (msgsOf st.messagesBySession sid)
      = some index)
    (hprev : prevUserPos (msgsOf st.messagesBySession sid) index = some j) :
    (∀ k < j, (msgsOf (runGen (regenStart st mid) evs).1.messagesBySession sid).get? k
        = (msgsOf st.messagesBySession sid).get? k) ∧
    ((msgsOf (runGen (regenStart st mid) evs).1.messagesBySession sid).get? j).map
        (fun m => m.content)
      = ((msgsOf st.messagesBySession sid).get? j).map (fun m => m.content) := by
  obtain ⟨target, hget, htid, hbefore⟩ := findIndexFrom_decomp _ _ _ hfind
  have hlen : index < (msgsOf st.messagesBySession sid).length :=
    get?_some_lt _ _ _ hget
  have hpreLen : ((msgsOf st.messagesBySession sid).take index).length = index := by
    rw [List.length_take]
    omega
  have hdecomp : msgsOf st.messagesBySession sid =
      (msgsOf st.messagesBySession sid).take index ++
        target :: (msgsOf st.messagesBySession sid).drop (index + 1) :=
    get?_decomp _ _ _ hget
  have hpre : ∀ m ∈ (msgsOf st.messagesBySession sid).take index, (m.id == mid) = false := by
    intro m hm
    obtain ⟨k, hk, hgk⟩ := mem_take_get? _ _ _ hm
    obtain ⟨y, hy, hpy⟩ := hbefore k hk
    rw [hgk] at hy
    cases hy
    exact hpy
  obtain ⟨r, hr, hjr⟩ := Option.map_eq_some'.mp hprev
  obtain ⟨u, hu, hpu, _⟩ := findIndexFrom_decomp _ _ _ hr
  have hrlt : r < index := by
    have := get?_some_lt _ _ _ hu
    rw [List.length_reverse, hpreLen] at this
    exact this
  have hjlt : j < index := by omega
  have hv : ∃ w, ((msgsOf st.messagesBySession sid).take index).reverse.find?
      (fun m => m.role == ChatRole.user) = some w := by
    refine Option.isSome_iff_exists.mp ?_
    rw [List.find?_isSome]
    exact ⟨u, List.get?_mem hu, hpu⟩
  obtain ⟨w, hw⟩ := hv
  obtain ⟨hph0, hpi0⟩ := regenStart_prefix st sid mid
    ((msgsOf st.messagesBySession sid).take index)
    ((msgsOf st.messagesBySession sid).drop (index + 1)) target w hactive hdecomp htid hpre hw
  obtain ⟨x, rest2, hm2, _⟩ :=
    runGen_prefix_frame _ sid mid hpre evs (regenStart st mid) hph0 hpi0
  have hframe : ∀ k, k < index →
      (msgsOf (runGen (regenStart st mid) evs).1.messagesBySession sid).get? k
        = (msgsOf st.messagesBySession sid).get? k := by
    intro k hk
    rw [hm2, get?_append_lt _ _ _ (by rw [hpreLen]; exact hk), get?_take_lt _ _ _ hk]
  exact ⟨fun k hk => hframe k (by omega), by rw [hframe j hjlt]⟩

/-- Witness for C8 at a concrete state: regenerating message 3 of
`regenCounterState` (preceding user at position 2) leaves positions 0 and 1
and the content at position 2 untouched. -/
theorem regenerate_frame_witness :
    (∀ k < 2, (msgsOf (runGen (regenStart regenCounterState 3)
        (genEvents (.ok "Hi!".toList none))).1.messagesBySession 0).get? k
      = (msgsOf regenCounterState.messagesBySession 0).get? k) ∧
    ((msgsOf (runGen (regenStart regenCounterState 3)
        (genEvents (.ok "Hi!".toList none))).1.messagesBySession 0).get? 2).map
        (fun m => m.content)
      = ((msgsOf regenCounterState.messagesBySession 0).get? 2).map (fun m => m.content) :=
  regenerate_frame regenCounterState 3 0 3 2 (genEvents (.ok "Hi!".toList none))
    rfl (by decide) (by decide)

/-! ## The single-streaming invariant (C2) -/

theorem countStreaming_eq_zero (st : ChatState) (h : NoStreaming st) :
    countStreaming st = 0 := by
  have : (allMsgs st).filter (fun m => m.status == .streaming) = [] := by
    rw [List.filter_eq_nil]
    intro m hm
    simp [h m hm]
  simp [countStreaming, this]

theorem nodup_sides (F1 mo F2 : List ChatMessage)
    (hnd : ((F1 ++ mo ++ F2).map (fun m => m.id)).Nodup) (m : ChatMessage) (hmo : m ∈ mo) :
    ¬ m ∈ F1 ∧ ¬ m ∈ F2 := by
  rw [List.map_append, List.map_append] at hnd
  have hAB : ((F1.map (fun m => m.id)) ++ (mo.map (fun m => m.id))).Nodup :=
    (List.sublist_append_left _ _).nodup hnd
  have hdisj1 := (List.nodup_append.mp hAB).2.2
  have hdisj2 := (List.nodup_append.mp hnd).2.2
  constructor
  · intro h1
    exact hdisj1 (List.mem_map_of_mem _ h1) (List.mem_map_of_mem _ hmo)
  · intro h2
    exact hdisj2 (List.mem_append.mpr (Or.inr (List.mem_map_of_mem _ hmo)))
      (List.mem_map_of_mem _ h2)

theorem mo_nodup_of_triple (F1 mo F2 : List ChatMessage)
    (hnd : ((F1 ++ mo ++ F2).map (fun m => m.id)).Nodup) :
    (mo.map (fun m => m.id)).Nodup := by
  have hsub : List.Sublist mo (F1 ++ mo ++ F2) := by
    rw [List.append_assoc]
    exact List.Sublist.trans (List.sublist_append_left mo F2)
      (List.sublist_append_right F1 (mo ++ F2))
  exact (hsub.map _).nodup hnd

theorem updateMessage_allMsgs_decomp (st : ChatState) (sid mid : Nat)
    (f : ChatMessage → ChatMessage) :
    ∃ F1 F2, allMsgs st = F1 ++ msgsOf st.messagesBySession sid ++ F2 ∧
      allMsgs (updateMessage st sid mid f) =
        F1 ++ updateFirst (fun m => m.id == mid) f (msgsOf st.messagesBySession sid) ++ F2 ∧
      msgsOf (updateMessage st sid mid f).messagesBySession sid =
        updateFirst (fun m => m.id == mid) f (msgsOf st.messagesBySession sid) := by
  obtain ⟨F1, F2, h1, h2, h3⟩ := putMsgs_shape st.messagesBySession sid
  exact ⟨F1, F2, h1, h2 _, h3 _⟩

theorem appendMessage_allMsgs_decomp (st : ChatState) (sid : Nat) (msg : ChatMessage) :
    ∃ F1 F2, allMsgs st = F1 ++ msgsOf st.messagesBySession sid ++ F2 ∧
      allMsgs (appendMessage st sid msg) =
        F1 ++ (msgsOf st.messagesBySession sid ++ [msg]) ++ F2 ∧
      msgsOf (appendMessage st sid msg).messagesBySession sid =
        msgsOf st.messagesBySession sid ++ [msg] := by
  obtain ⟨F1, F2, h1, h2, h3⟩ := putMsgs_shape st.messagesBySession sid
  exact ⟨F1, F2, h1, h2 _, h3 _⟩

theorem countStreaming_le_one_of_sole (st : ChatState) (sid mid : Nat)
    (hwf : MsgsWF st) (hss : SoleStreaming sid mid st) : countStreaming st ≤ 1 := by
  have hsub : List.Sublist ((allMsgs st).filter (fun m => m.status == .streaming))
      (allMsgs st) := List.filter_sublist _
  cases hfl : (allMsgs st).filter (fun m => m.status == .streaming) with
  | nil => simp [countStreaming, hfl]
  | cons a t =>
    cases t with
    | nil => simp [countStreaming, hfl]
    | cons b t2 =>
      exfalso
      rw [hfl] at hsub
      have hnd : ((a :: b :: t2).map (fun m => m.id)).Nodup := (hsub.map _).nodup hwf.1
      have ha : a ∈ allMsgs st ∧ (a.status == MessageStatus.streaming) = true := by
        have : a ∈ (allMsgs st).filter (fun m => m.status == .streaming) := by
          rw [hfl]; simp
        exact ⟨(List.mem_filter.mp this).1, (List.mem_filter.mp this).2⟩
      have hb : b ∈ allMsgs st ∧ (b.status == MessageStatus.streaming) = true := by
        have : b ∈ (allMsgs st).filter (fun m => m.status == .streaming) := by
          rw [hfl]; simp
        exact ⟨(List.mem_filter.mp this).1, (List.mem_filter.mp this).2⟩
      have haid := (hss a ha.1 (by simpa using ha.2)).1
      have hbid := (hss b hb.1 (by simpa using hb.2)).1
      simp only [List.map_cons, List.nodup_cons, List.mem_cons, List.mem_map] at hnd
      exact hnd.1 (Or.inl (haid.trans hbid.symm))

theorem MsgsWF_updateMessage (st : ChatState) (sid mid : Nat)
    (f : ChatMessage → ChatMessage) (hid : ∀ x, (f x).id = x.id) (hwf : MsgsWF st) :
    MsgsWF (updateMessage st sid mid f) := by
  obtain ⟨F1, F2, h1, h2, _⟩ := updateMessage_allMsgs_decomp st sid mid f
  constructor
  · rw [h2, List.map_append, List.map_append,
      map_updateFirst _ _ _ _ (fun x => hid x), ← List.map_append, ← List.map_append, ← h1]
    exact hwf.1
  · intro m hm
    rw [h2] at hm
    rw [updateMessage_nextId]
    rcases List.mem_append.mp hm with hm | hm2
    · rcases List.mem_append.mp hm with hm1 | hmid
      · exact hwf.2 m (by rw [h1]; exact List.mem_append.mpr (Or.inl
          (List.mem_append.mpr (Or.inl hm1))))
      · rcases mem_updateFirst _ _ _ _ hmid with hmo | ⟨x, hx, _, hfx⟩
        · exact hwf.2 m (by rw [h1]; exact List.mem_append.mpr (Or.inl
            (List.mem_append.mpr (Or.inr hmo))))
        · rw [hfx, hid]
          exact hwf.2 x (by rw [h1]; exact List.mem_append.mpr (Or.inl
            (List.mem_append.mpr (Or.inr hx))))
    · exact hwf.2 m (by rw [h1]; exact List.mem_append.mpr (Or.inr hm2))

theorem SoleStreaming_updateMessage (st : ChatState) (sid mid : Nat)
    (f : ChatMessage → ChatMessage) (hid : ∀ x, (f x).id = x.id)
    (hwf : MsgsWF st) (hss : SoleStreaming sid mid st) :
    SoleStreaming sid mid (updateMessage st sid mid f) := by
  obtain ⟨F1, F2, h1, h2, h3⟩ := updateMessage_allMsgs_decomp st sid mid f
  intro m hm hstr
  rw [h2] at hm
  rcases List.mem_append.mp hm with hm | hm2
  · rcases List.mem_append.mp hm with hm1 | hmid
    · exfalso
      have hmold : m ∈ allMsgs st := by
        rw [h1]; exact List.mem_append.mpr (Or.inl (List.mem_append.mpr (Or.inl hm1)))
      have := (hss m hmold hstr).2
      have hnd := hwf.1
      rw [h1] at hnd
      exact (nodup_sides F1 _ F2 hnd m this).1 hm1
    · refine ⟨?_, by rw [h3]; exact hmid⟩
      rcases mem_updateFirst _ _ _ _ hmid with hmo | ⟨x, hx, hpx, hfx⟩
      · exact (hss m (by rw [h1]; exact List.mem_append.mpr (Or.inl
          (List.mem_append.mpr (Or.inr hmo)))) hstr).1
      · rw [hfx, hid]
        simpa using hpx
  · exfalso
    have hmold : m ∈ allMsgs st := by
      rw [h1]; exact List.mem_append.mpr (Or.inr hm2)
    have := (hss m hmold hstr).2
    have hnd := hwf.1
    rw [h1] at hnd
    exact (nodup_sides F1 _ F2 hnd m this).2 hm2

theorem NoStreaming_setStatus_final (st : ChatState) (sid mid : Nat)
    (status : MessageStatus) (hfin : status ≠ .streaming)
    (hwf : MsgsWF st) (hss : SoleStreaming sid mid st) :
    NoStreaming (setMessageStatus st sid mid status) := by
  obtain ⟨F1, F2, h1, h2, _⟩ := updateMessage_allMsgs_decomp st sid mid
    (fun m => { m with status := status })
  intro m hm hstr
  rw [show setMessageStatus st sid mid status = updateMessage st sid mid
    (fun m => { m with status := status }) from rfl] at hm
  rw [h2] at hm
  have hndmo : ((msgsOf st.messagesBySession sid).map (fun m => m.id)).Nodup := by
    have := hwf.1
    rw [h1] at this
    exact mo_nodup_of_triple F1 _ F2 this
  rcases List.mem_append.mp hm with hm | hm2
  · rcases List.mem_append.mp hm with hm1 | hmid
    · have hmold : m ∈ allMsgs st := by
        rw [h1]; exact List.mem_append.mpr (Or.inl (List.mem_append.mpr (Or.inl hm1)))
      have := (hss m hmold hstr).2
      have hnd := hwf.1
      rw [h1] at hnd
      exact (nodup_sides F1 _ F2 hnd m this).1 hm1
    · cases hfind : (msgsOf st.messagesBySession sid).find? (fun x => x.id == mid) with
      | none =>
        rw [updateFirst_of_forall_false _ _ _
          (fun y hy => by simpa using List.find?_eq_none.mp hfind y hy)] at hmid
        have hmold : m ∈ allMsgs st := by
          rw [h1]; exact List.mem_append.mpr (Or.inl (List.mem_append.mpr (Or.inr hmid)))
        have hid := (hss m hmold hstr).1
        have := List.find?_eq_none.mp hfind m hmid
        simp [hid] at this
      | some x =>
        obtain ⟨l1, l2, heq, hl1, hpx, hupd⟩ := find?_decomp _ _ _ hfind
        rw [hupd] at hmid
        rcases List.mem_append.mp hmid with hml1 | hmr
        · have hmold : m ∈ allMsgs st := by
            rw [h1, heq]
            exact List.mem_append.mpr (Or.inl (List.mem_append.mpr (Or.inr
              (List.mem_append.mpr (Or.inl hml1)))))
          have hid := (hss m hmold hstr).1
          have := hl1 m hml1
          simp [hid] at this
        · rcases List.mem_cons.mp hmr with hfx | hml2
          · rw [hfx] at hstr
            exact hfin hstr
          · have hmold : m ∈ allMsgs st := by
              rw [h1, heq]
              refine List.mem_append.mpr (Or.inl (List.mem_append.mpr (Or.inr ?_)))
              exact List.mem_append.mpr (Or.inr (List.mem_cons.mpr (Or.inr hml2)))
            have hid := (hss m hmold hstr).1
            rw [heq] at hndmo
            have hndx : ((x :: l2).map (fun m => m.id)).Nodup :=
              ((List.sublist_append_right l1 (x :: l2)).map _).nodup hndmo
            simp only [List.map_cons, List.nodup_cons] at hndx
            have hxid : x.id = mid := by simpa using hpx
            exact hndx.1 (by
              rw [hxid, ← hid]
              exact List.mem_map_of_mem _ hml2)
  · have hmold : m ∈ allMsgs st := by
      rw [h1]; exact List.mem_append.mpr (Or.inr hm2)
    have := (hss m hmold hstr).2
    have hnd2 := hwf.1
    rw [h1] at hnd2
    exact (nodup_sides F1 _ F2 hnd2 m this).2 hm2

theorem mem_allMsgs_appendMessage (st : ChatState) (sid : Nat) (msg m : ChatMessage)
    (hm : m ∈ allMsgs (appendMessage st sid msg)) : m ∈ allMsgs st ∨ m = msg := by
  obtain ⟨F1, F2, h1, h2, _⟩ := appendMessage_allMsgs_decomp st sid msg
  rw [h2] at hm
  rcases List.mem_append.mp hm with hm | hm2
  · rcases List.mem_append.mp hm with hm1 | hmid
    · exact Or.inl (by rw [h1]; exact List.mem_append.mpr (Or.inl
        (List.mem_append.mpr (Or.inl hm1))))
    · rcases List.mem_append.mp hmid with hmo | hmsg
      · exact Or.inl (by rw [h1]; exact List.mem_append.mpr (Or.inl
          (List.mem_append.mpr (Or.inr hmo))))
      · exact Or.inr (by simpa using hmsg)
  · exact Or.inl (by rw [h1]; exact List.mem_append.mpr (Or.inr hm2))

theorem MsgsWF_appendMessage (st : ChatState) (sid : Nat) (msg : ChatMessage)
    (hwf : MsgsWF st) (hlt : msg.id < st.nextId)
    (hfresh : ∀ m ∈ allMsgs st, m.id ≠ msg.id) :
    MsgsWF (appendMessage st sid msg) := by
  obtain ⟨F1, F2, h1, h2, _⟩ := appendMessage_allMsgs_decomp st sid msg
  constructor
  · rw [h2]
    have hmid : F1 ++ (msgsOf st.messagesBySession sid ++ [msg]) ++ F2
        = (F1 ++ msgsOf st.messagesBySession sid) ++ msg :: F2 := by simp
    rw [hmid, List.map_append]
    rw [List.map_cons]
    rw [List.nodup_middle]
    rw [List.nodup_cons]
    constructor
    · intro hmem
      rw [← List.map_append] at hmem
      obtain ⟨y, hy, hyid⟩ := List.mem_map.mp hmem
      have hyall : y ∈ allMsgs st := by
        rw [h1]
        rcases List.mem_append.mp hy with ha | hb
        · exact List.mem_append.mpr (Or.inl ha)
        · exact List.mem_append.mpr (Or.inr hb)
      exact hfresh y hyall hyid
    · rw [← List.map_append]
      have : (F1 ++ msgsOf st.messagesBySession sid) ++ F2
          = F1 ++ msgsOf st.messagesBySession sid ++ F2 := by simp
      rw [this, ← h1]
      exact hwf.1
  · intro m hm
    rw [appendMessage_nextId]
    rcases mem_allMsgs_appendMessage st sid msg m hm with hold | hmsg
    · exact hwf.2 m hold
    · rw [hmsg]; exact hlt

theorem NoStreaming_appendMessage (st : ChatState) (sid : Nat) (msg : ChatMessage)
    (hns : NoStreaming st) (hmsg : msg.status ≠ .streaming) :
    NoStreaming (appendMessage st sid msg) := by
  intro m hm hstr
  rcases mem_allMsgs_appendMessage st sid msg m hm with hold | heq
  · exact hns m hold hstr
  · rw [heq] at hstr; exact hmsg hstr

theorem SoleStreaming_appendMessage_new (st : ChatState) (sid : Nat) (msg : ChatMessage)
    (hns : NoStreaming st) :
    SoleStreaming sid msg.id (appendMessage st sid msg) := by
  obtain ⟨F1, F2, h1, h2, h3⟩ := appendMessage_allMsgs_decomp st sid msg
  intro m hm hstr
  rcases mem_allMsgs_appendMessage st sid msg m hm with hold | heq
  · exact absurd hstr (hns m hold)
  · rw [heq]
    exact ⟨rfl, by rw [h3]; simp⟩

theorem SoleStreaming_appendMessage_keep (st : ChatState) (sid mid : Nat)
    (msg : ChatMessage) (hss : SoleStreaming sid mid st) (hmsg : msg.status ≠ .streaming) :
    SoleStreaming sid mid (appendMessage st sid msg) := by
  obtain ⟨F1, F2, h1, h2, h3⟩ := appendMessage_allMsgs_decomp st sid msg
  intro m hm hstr
  rcases mem_allMsgs_appendMessage st sid msg m hm with hold | heq
  · obtain ⟨hid, hmem⟩ := hss m hold hstr
    exact ⟨hid, by rw [h3]; exact List.mem_append.mpr (Or.inl hmem)⟩
  · rw [heq] at hstr
    exact absurd hstr hmsg

theorem ensureEntry_allMsgs (st : ChatState) (sid : Nat) :
    allMsgs (ensureEntry st sid) = allMsgs st := by
  obtain ⟨F1, F2, h1, h2, _⟩ := putMsgs_shape st.messagesBySession sid
  show flatMsgs (putMsgs st.messagesBySession sid (msgsOf st.messagesBySession sid))
    = flatMsgs st.messagesBySession
  rw [h2 _, ← h1]

theorem MsgsWF_of_allMsgs_eq (st st2 : ChatState)
    (hmsgs : allMsgs st2 = allMsgs st) (hnext : st.nextId ≤ st2.nextId)
    (hwf : MsgsWF st) : MsgsWF st2 := by
  constructor
  · rw [hmsgs]; exact hwf.1
  · intro m hm
    rw [hmsgs] at hm
    exact Nat.lt_of_lt_of_le (hwf.2 m hm) hnext

theorem MsgsWF_of_sublist (st st2 : ChatState)
    (hsub : List.Sublist (allMsgs st2) (allMsgs st)) (hnext : st.nextId ≤ st2.nextId)
    (hwf : MsgsWF st) : MsgsWF st2 := by
  constructor
  · exact (hsub.map _).nodup hwf.1
  · intro m hm
    exact Nat.lt_of_lt_of_le (hwf.2 m (hsub.mem hm)) hnext

theorem NoStreaming_of_sublist (st st2 : ChatState)
    (hsub : List.Sublist (allMsgs st2) (allMsgs st)) (hns : NoStreaming st) :
    NoStreaming st2 :=
  fun m hm => hns m (hsub.mem hm)

theorem allMsgs_abortCurrent (st : ChatState) : allMsgs (abortCurrent st) = allMsgs st := by
  unfold allMsgs
  rw [abortCurrent_messages]

theorem MsgsWF_abortCurrent (st : ChatState) (h : MsgsWF st) : MsgsWF (abortCurrent st) :=
  MsgsWF_of_allMsgs_eq st _ (allMsgs_abortCurrent st) (by rw [abortCurrent_nextId]) h

theorem MsgsWF_newController (st : ChatState) (h : MsgsWF st) : MsgsWF (newController st).1 :=
  h

theorem allMsgs_buildContext (st : ChatState) (sid : Nat) :
    allMsgs (buildContextMessages st sid).1 = allMsgs st := by
  show allMsgs (ensureEntry (setActiveSession st sid) sid) = allMsgs st
  rw [ensureEntry_allMsgs]
  rfl

theorem MsgsWF_buildContext (st : ChatState) (sid : Nat) (h : MsgsWF st) :
    MsgsWF (buildContextMessages st sid).1 :=
  MsgsWF_of_allMsgs_eq st _ (allMsgs_buildContext st sid)
    (by rw [buildContextMessages_nextId]) h

theorem MsgsWF_ensureEntry (st : ChatState) (sid : Nat) (h : MsgsWF st) :
    MsgsWF (ensureEntry st sid) :=
  MsgsWF_of_allMsgs_eq st _ (ensureEntry_allMsgs st sid) (by rw [ensureEntry_nextId]) h

theorem NoStreaming_abortCurrent (st : ChatState) (h : NoStreaming st) :
    NoStreaming (abortCurrent st) := by
  intro m hm
  rw [allMsgs_abortCurrent] at hm
  exact h m hm

theorem NoStreaming_buildContext (st : ChatState) (sid : Nat) (h : NoStreaming st) :
    NoStreaming (buildContextMessages st sid).1 := by
  intro m hm
  rw [allMsgs_buildContext] at hm
  exact h m hm

theorem NoStreaming_ensureEntry (st : ChatState) (sid : Nat) (h : NoStreaming st) :
    NoStreaming (ensureEntry st sid) := by
  intro m hm
  rw [ensureEntry_allMsgs] at hm
  exact h m hm

theorem SoleStreaming_abortCurrent (st : ChatState) (sid mid : Nat)
    (h : SoleStreaming sid mid st) : SoleStreaming sid mid (abortCurrent st) := by
  intro m hm hstr
  rw [allMsgs_abortCurrent] at hm
  obtain ⟨hid, hmem⟩ := h m hm hstr
  refine ⟨hid, ?_⟩
  rw [show (abortCurrent st).messagesBySession = st.messagesBySession from
    abortCurrent_messages st]
  exact hmem

theorem SoleStreaming_newController (st : ChatState) (sid mid : Nat)
    (h : SoleStreaming sid mid st) : SoleStreaming sid mid (newController st).1 :=
  h

theorem SoleStreaming_buildContext (st : ChatState) (sid mid : Nat)
    (h : SoleStreaming sid mid st) : SoleStreaming sid mid (buildContextMessages st sid).1 := by
  intro m hm hstr
  rw [allMsgs_buildContext] at hm
  obtain ⟨hid, hmem⟩ := h m hm hstr
  refine ⟨hid, ?_⟩
  rw [show msgsOf (buildContextMessages st sid).1.messagesBySession sid
      = msgsOf st.messagesBySession sid from buildContextMessages_msgsOf st sid]
  exact hmem

theorem MsgsWF_appendMessage_fresh (st : ChatState) (sid : Nat) (msg : ChatMessage)
    (hwf : MsgsWF st) (hid : msg.id = st.nextId) :
    MsgsWF (appendMessage { st with nextId := st.nextId + 1 } sid msg) := by
  refine MsgsWF_appendMessage _ sid msg
    (MsgsWF_of_allMsgs_eq st _ rfl (Nat.le_succ _) hwf) ?_ ?_
  · show msg.id < st.nextId + 1
    rw [hid]
    exact Nat.lt_succ_self _
  · intro m hm
    have := hwf.2 m hm
    rw [hid]
    omega

theorem SoleStreaming_setStatus_streaming (st : ChatState) (sid mid : Nat)
    (hns : NoStreaming st) :
    SoleStreaming sid mid (setMessageStatus st sid mid .streaming) := by
  obtain ⟨F1, F2, h1, h2, h3⟩ := updateMessage_allMsgs_decomp st sid mid
    (fun m => { m with status := .streaming })
  intro m hm hstr
  rw [show setMessageStatus st sid mid .streaming = updateMessage st sid mid
    (fun m => { m with status := .streaming }) from rfl] at hm
  rw [h2] at hm
  rcases List.mem_append.mp hm with hm | hm2
  · rcases List.mem_append.mp hm with hm1 | hmid
    · exact absurd hstr (hns m (by rw [h1]; exact List.mem_append.mpr (Or.inl
        (List.mem_append.mpr (Or.inl hm1)))))
    · refine ⟨?_, by
        rw [show msgsOf (setMessageStatus st sid mid .streaming).messagesBySession sid
          = updateFirst (fun m => m.id == mid) (fun m => { m with status := .streaming })
            (msgsOf st.messagesBySession sid) from h3]
        exact hmid⟩
      rcases mem_updateFirst _ _ _ _ hmid with hmo | ⟨x, hx, hpx, hfx⟩
      · exact absurd hstr (hns m (by rw [h1]; exact List.mem_append.mpr (Or.inl
          (List.mem_append.mpr (Or.inr hmo)))))
      · rw [hfx]
        simpa using hpx
  · exact absurd hstr (hns m (by rw [h1]; exact List.mem_append.mpr (Or.inr hm2)))

theorem sublist_flatten (l1 l2 : List (List α)) (h : List.Sublist l1 l2) :
    List.Sublist l1.flatten l2.flatten := by
  induction h with
  | slnil => simp
  | cons a _ ih =>
    rw [List.flatten_cons]
    exact List.Sublist.trans ih (List.sublist_append_right a _)
  | cons₂ a _ ih =>
    rw [List.flatten_cons, List.flatten_cons]
    exact List.Sublist.append_left ih a

theorem allMsgs_filter_sublist (st : ChatState) (q : Nat × List ChatMessage → Bool) :
    List.Sublist (allMsgs { st with messagesBySession := st.messagesBySession.filter q })
      (allMsgs st) := by
  unfold allMsgs
  exact sublist_flatten _ _ ((List.filter_sublist _).map _)

theorem startNewSession_allMsgs_sub (st : ChatState) (title : Option Str) :
    List.Sublist (allMsgs (startNewSession st title).1) (allMsgs st) := by
  obtain ⟨F1, F2, h1, h2, _⟩ := putMsgs_shape st.messagesBySession
    (createSession st.sessionsStore title st.clock st.nextId).1.id
  show List.Sublist (flatMsgs (putMsgs st.messagesBySession
    (createSession st.sessionsStore title st.clock st.nextId).1.id [])) (flatMsgs _)
  rw [h2 [], h1]
  simp only [List.append_nil, List.nil_append]
  rw [List.append_assoc]
  exact List.Sublist.append_left (List.sublist_append_right _ _) F1

theorem MsgsWF_startNewSession (st : ChatState) (title : Option Str) (h : MsgsWF st) :
    MsgsWF (startNewSession st title).1 :=
  MsgsWF_of_sublist st _ (startNewSession_allMsgs_sub st title) (Nat.le_succ _) h

theorem NoStreaming_startNewSession (st : ChatState) (title : Option Str)
    (h : NoStreaming st) : NoStreaming (startNewSession st title).1 :=
  NoStreaming_of_sublist st _ (startNewSession_allMsgs_sub st title) h

theorem MsgsWF_ensureSession (st : ChatState) (h : MsgsWF st) : MsgsWF (ensureSession st).1 := by
  unfold ensureSession
  cases st.sessionsStore.activeSessionId with
  | none => exact MsgsWF_startNewSession st none h
  | some sid => exact h

theorem NoStreaming_ensureSession (st : ChatState) (h : NoStreaming st) :
    NoStreaming (ensureSession st).1 := by
  unfold ensureSession
  cases st.sessionsStore.activeSessionId with
  | none => exact NoStreaming_startNewSession st none h
  | some sid => exact h

theorem finishOk_inv (st : ChatState) (kind : WriterKind) (sid mid : Nat)
    (card : Option AssistantCard) (hwf : MsgsWF st) (hss : SoleStreaming sid mid st) :
    MsgsWF (finishOk st kind sid mid card) ∧ NoStreaming (finishOk st kind sid mid card) := by
  have h1wf : MsgsWF (setMessageStatus st sid mid .sent) :=
    MsgsWF_updateMessage st sid mid _ (fun x => rfl) hwf
  have h1ns : NoStreaming (setMessageStatus st sid mid .sent) :=
    NoStreaming_setStatus_final st sid mid .sent (by simp) hwf hss
  have h2wf : ∀ c : AssistantCard,
      MsgsWF (appendCardMessage (setMessageStatus st sid mid .sent) sid c) :=
    fun c => MsgsWF_appendMessage_fresh _ sid _ h1wf rfl
  have h2ns : ∀ c : AssistantCard,
      NoStreaming (appendCardMessage (setMessageStatus st sid mid .sent) sid c) :=
    fun c => NoStreaming_appendMessage _ sid _ h1ns (by simp)
  cases kind with
  | plainSend =>
    cases card with
    | none => exact ⟨MsgsWF_of_allMsgs_eq _ _ rfl (Nat.le_refl _) h1wf,
        fun m hm => h1ns m hm⟩
    | some c => exact ⟨MsgsWF_of_allMsgs_eq _ _ rfl (Nat.le_refl _) (h2wf c),
        fun m hm => h2ns c m hm⟩
  | filesSend =>
    cases card with
    | none => exact ⟨MsgsWF_of_allMsgs_eq _ _ rfl (Nat.le_refl _) h1wf,
        fun m hm => h1ns m hm⟩
    | some c => exact ⟨MsgsWF_of_allMsgs_eq _ _ rfl (Nat.le_refl _) (h2wf c),
        fun m hm => h2ns c m hm⟩
  | regenerate =>
    cases card with
    | none => exact ⟨MsgsWF_of_allMsgs_eq _ _ rfl (Nat.le_refl _) h1wf,
        fun m hm => h1ns m hm⟩
    | some c => exact ⟨MsgsWF_of_allMsgs_eq _ _ rfl (Nat.le_refl _) (h2wf c),
        fun m hm => h2ns c m hm⟩

theorem finishErr_inv (st : ChatState) (kind : WriterKind) (sid mid : Nat)
    (hwf : MsgsWF st) (hss : SoleStreaming sid mid st) :
    MsgsWF (finishErr st kind sid mid).1 ∧ NoStreaming (finishErr st kind sid mid).1 := by
  have h1wf : MsgsWF (setMessageStatus st sid mid .error) :=
    MsgsWF_updateMessage st sid mid _ (fun x => rfl) hwf
  have h1ns : NoStreaming (setMessageStatus st sid mid .error) :=
    NoStreaming_setStatus_final st sid mid .error (by simp) hwf hss
  cases kind with
  | plainSend => exact ⟨MsgsWF_of_allMsgs_eq _ _ rfl (Nat.le_refl _) h1wf,
      fun m hm => h1ns m hm⟩
  | filesSend => exact ⟨MsgsWF_of_allMsgs_eq _ _ rfl (Nat.le_refl _) h1wf,
      fun m hm => h1ns m hm⟩
  | regenerate => exact ⟨MsgsWF_of_allMsgs_eq _ _ rfl (Nat.le_refl _) h1wf,
      fun m hm => h1ns m hm⟩

theorem genStep_geninv (cfg : ChatState × GenPhase) (ev : GenEv) (h : GenInv cfg) :
    GenInv (genStep cfg ev) := by
  obtain ⟨s, ph⟩ := cfg
  cases ph with
  | readySend input => cases ev <;> exact h
  | finished b => cases ev <;> exact h
  | awaitCompletion kind sid mid c =>
    obtain ⟨hwf, hss⟩ := h
    cases ev with
    | chunk => exact ⟨hwf, hss⟩
    | complete res =>
      have hgs : genStep (s, GenPhase.awaitCompletion kind sid mid c) (GenEv.complete res)
          = genComplete s kind sid mid res := rfl
      rw [hgs]
      cases res with
      | err =>
        obtain ⟨h1, h2⟩ := finishErr_inv s kind sid mid hwf hss
        exact ⟨h1, h2⟩
      | ok content card =>
        have hwfU : MsgsWF (updateMessage s sid mid
            (fun m => { m with content := [], status := .streaming })) :=
          MsgsWF_updateMessage s sid mid _ (fun x => rfl) hwf
        have hssU : SoleStreaming sid mid (updateMessage s sid mid
            (fun m => { m with content := [], status := .streaming })) :=
          SoleStreaming_updateMessage s sid mid _ (fun x => rfl) hwf hss
        simp only [genComplete]
        cases hch : streamTextChunks content (some 4) with
        | nil =>
          obtain ⟨h1, h2⟩ := finishOk_inv _ kind sid mid card hwfU hssU
          exact ⟨h1, h2⟩
        | cons c1 cs =>
          by_cases hab : ctrlAborted (updateMessage s sid mid
              (fun m => { m with content := [], status := .streaming }))
              (updateMessage s sid mid
                (fun m => { m with content := [], status := .streaming })).abortController
              = true
          · simp only [hab, if_true]
            obtain ⟨h1, h2⟩ := finishOk_inv _ kind sid mid card hwfU hssU
            exact ⟨h1, h2⟩
          · simp only [eq_false_of_ne_true hab, Bool.false_eq_true, if_false]
            exact ⟨hwfU, hssU⟩
  | awaitChunk kind sid mid sig chunks card =>
    obtain ⟨hwf, hss⟩ := h
    cases ev with
    | complete res => exact ⟨hwf, hss⟩
    | chunk =>
      have hgs : genStep (s, GenPhase.awaitChunk kind sid mid sig chunks card) GenEv.chunk
          = genChunkStep s kind sid mid sig chunks card := rfl
      rw [hgs]
      cases chunks with
      | nil =>
        obtain ⟨h1, h2⟩ := finishOk_inv s kind sid mid card hwf hss
        exact ⟨h1, h2⟩
      | cons c1 cs =>
        have hwfU : MsgsWF (updateMessage s sid mid
            (fun m => { m with content := m.content ++ c1 })) :=
          MsgsWF_updateMessage s sid mid _ (fun x => rfl) hwf
        have hssU : SoleStreaming sid mid (updateMessage s sid mid
            (fun m => { m with content := m.content ++ c1 })) :=
          SoleStreaming_updateMessage s sid mid _ (fun x => rfl) hwf hss
        simp only [genChunkStep]
        cases cs with
        | nil =>
          obtain ⟨h1, h2⟩ := finishOk_inv _ kind sid mid card hwfU hssU
          exact ⟨h1, h2⟩
        | cons c2 cs2 =>
          by_cases hab : ctrlAborted (updateMessage s sid mid
              (fun m => { m with content := m.content ++ c1 })) sig = true
          · simp only [hab, if_true]
            obtain ⟨h1, h2⟩ := finishOk_inv _ kind sid mid card hwfU hssU
            exact ⟨h1, h2⟩
          · simp only [eq_false_of_ne_true hab, Bool.false_eq_true, if_false]
            exact ⟨hwfU, hssU⟩

theorem runGen_geninv (evs : List GenEv) :
    ∀ cfg : ChatState × GenPhase, GenInv cfg → GenInv (runGen cfg evs) := by
  induction evs with
  | nil => intro cfg h; exact h
  | cons e es ih =>
    intro cfg h
    rw [runGen, List.foldl_cons, ← runGen]
    exact ih _ (genStep_geninv cfg e h)

theorem countStreaming_le_one_of_geninv (cfg : ChatState × GenPhase) (h : GenInv cfg) :
    countStreaming cfg.1 ≤ 1 := by
  obtain ⟨s, ph⟩ := cfg
  cases ph with
  | readySend input =>
    obtain ⟨_, hns⟩ := h
    rw [countStreaming_eq_zero s hns]
    omega
  | finished b =>
    obtain ⟨_, hns⟩ := h
    rw [countStreaming_eq_zero s hns]
    omega
  | awaitCompletion kind sid mid c =>
    obtain ⟨hwf, hss⟩ := h
    exact countStreaming_le_one_of_sole s sid mid hwf hss
  | awaitChunk kind sid mid sig chunks card =>
    obtain ⟨hwf, hss⟩ := h
    exact countStreaming_le_one_of_sole s sid mid hwf hss

theorem runGen_drain_fin (kind : WriterKind) (sid phId : Nat) (sig : Option Nat)
    (card : Option AssistantCard) :
    ∀ (rest : List Str) (st : ChatState), rest ≠ [] → MsgsWF st → SoleStreaming sid phId st →
      MsgsWF (runGen (st, .awaitChunk kind sid phId sig rest card)
          (List.replicate rest.length .chunk)).1 ∧
      NoStreaming (runGen (st, .awaitChunk kind sid phId sig rest card)
          (List.replicate rest.length .chunk)).1 := by
  intro rest
  induction rest with
  | nil => intro st hne; exact absurd rfl hne
  | cons c1 cs ih =>
    intro st _ hwf hss
    have hwfU : MsgsWF (updateMessage st sid phId
        (fun m => { m with content := m.content ++ c1 })) :=
      MsgsWF_updateMessage st sid phId _ (fun x => rfl) hwf
    have hssU : SoleStreaming sid phId (updateMessage st sid phId
        (fun m => { m with content := m.content ++ c1 })) :=
      SoleStreaming_updateMessage st sid phId _ (fun x => rfl) hwf hss
    cases cs with
    | nil =>
      simp only [List.length_cons, List.length_nil, List.replicate, runGen, List.foldl_cons,
        List.foldl_nil, genStep, genChunkStep]
      exact finishOk_inv _ kind sid phId card hwfU hssU
    | cons c2 cs2 =>
      have hrep : List.replicate (c1 :: c2 :: cs2).length GenEv.chunk =
          GenEv.chunk :: List.replicate (c2 :: cs2).length GenEv.chunk := by
        simp [List.replicate_succ]
      rw [hrep, runGen, List.foldl_cons, ← runGen]
      by_cases hab : ctrlAborted (updateMessage st sid phId
          (fun m => { m with content := m.content ++ c1 })) sig = true
      · have hstep : genStep (st, GenPhase.awaitChunk kind sid phId sig
            (c1 :: c2 :: cs2) card) GenEv.chunk
            = (finishOk (updateMessage st sid phId
                (fun m => { m with content := m.content ++ c1 })) kind sid phId
                card, .finished false) := by
          simp only [genStep, genChunkStep, hab, if_true]
        rw [hstep, runGen_finished]
        exact finishOk_inv _ kind sid phId card hwfU hssU
      · have hstep : genStep (st, GenPhase.awaitChunk kind sid phId sig
            (c1 :: c2 :: cs2) card) GenEv.chunk
            = (updateMessage st sid phId (fun m => { m with content := m.content ++ c1 }),
              GenPhase.awaitChunk kind sid phId sig (c2 :: cs2) card) := by
          simp only [genStep, genChunkStep, eq_false_of_ne_true hab, Bool.false_eq_true,
            if_false]
        rw [hstep]
        exact ih _ (by simp) hwfU hssU

theorem runGen_complete_fin (A : ChatState) (kind : WriterKind) (sid phId ctrl : Nat)
    (res : CompletionResult) (hwf : MsgsWF A) (hss : SoleStreaming sid phId A) :
    MsgsWF (runGen (A, .awaitCompletion kind sid phId ctrl) (genEvents res)).1 ∧
    NoStreaming (runGen (A, .awaitCompletion kind sid phId ctrl) (genEvents res)).1 := by
  cases res with
  | err =>
    have hev : genEvents CompletionResult.err = [GenEv.complete .err] := rfl
    have hgs : genStep (A, GenPhase.awaitCompletion kind sid phId ctrl)
        (GenEv.complete .err) = genComplete A kind sid phId .err := rfl
    rw [hev, runGen, List.foldl_cons, List.foldl_nil, hgs]
    exact finishErr_inv A kind sid phId hwf hss
  | ok content card =>
    have hwfU : MsgsWF (updateMessage A sid phId
        (fun m => { m with content := [], status := .streaming })) :=
      MsgsWF_updateMessage A sid phId _ (fun x => rfl) hwf
    have hssU : SoleStreaming sid phId (updateMessage A sid phId
        (fun m => { m with content := [], status := .streaming })) :=
      SoleStreaming_updateMessage A sid phId _ (fun x => rfl) hwf hss
    have hev : genEvents (CompletionResult.ok content card)
        = GenEv.complete (.ok content card) ::
          List.replicate (streamTextChunks content (some 4)).length GenEv.chunk := rfl
    have hgs : genStep (A, GenPhase.awaitCompletion kind sid phId ctrl)
        (GenEv.complete (.ok content card)) = genComplete A kind sid phId
          (.ok content card) := rfl
    rw [hev, runGen, List.foldl_cons, ← runGen, hgs]
    simp only [genComplete]
    cases hch : streamTextChunks content (some 4) with
    | nil =>
      simp only [List.length_nil, List.replicate, runGen, List.foldl_nil]
      exact finishOk_inv _ kind sid phId card hwfU hssU
    | cons c1 cs =>
      by_cases hab : ctrlAborted (updateMessage A sid phId
          (fun m => { m with content := [], status := .streaming }))
          (updateMessage A sid phId
            (fun m => { m with content := [], status := .streaming })).abortController
          = true
      · simp only [hab, if_true]
        rw [runGen_finished]
        exact finishOk_inv _ kind sid phId card hwfU hssU
      · simp only [eq_false_of_ne_true hab, Bool.false_eq_true, if_false]
        exact runGen_drain_fin kind sid phId _ card (c1 :: cs) _ (by simp) hwfU hssU

theorem sendStart_inv (st : ChatState) (input : Str) (hwf : MsgsWF st)
    (hns : NoStreaming st) :
    GenInv (sendStart st input) ∧
    ((∃ b, (sendStart st input).2 = .finished b) ∨
      ∃ kind sid phId c, (sendStart st input).2 = .awaitCompletion kind sid phId c) := by
  by_cases htrim : trimStr input = []
  · simp only [sendStart, if_pos htrim]
    exact ⟨⟨hwf, hns⟩, Or.inl ⟨false, rfl⟩⟩
  · simp only [sendStart, if_neg htrim]
    refine ⟨⟨?_, ?_⟩, Or.inr ⟨.plainSend, _, _, _, rfl⟩⟩
    · exact MsgsWF_newController _ (MsgsWF_abortCurrent _ (MsgsWF_buildContext _ _
        (MsgsWF_appendMessage_fresh _ _ _
          (MsgsWF_appendMessage_fresh _ _ _ (MsgsWF_ensureSession st hwf) rfl) rfl)))
    · exact SoleStreaming_newController _ _ _ (SoleStreaming_abortCurrent _ _ _
        (SoleStreaming_buildContext _ _ _
          (SoleStreaming_appendMessage_new _ _ _
            (NoStreaming_appendMessage _ _ _ (NoStreaming_ensureSession st hns)
              (by simp)))))

theorem appendFileMessages_inv (sid : Nat) :
    ∀ (files : List UploadFile) (st : ChatState), MsgsWF st → NoStreaming st →
      MsgsWF (appendFileMessages st sid files) ∧
      NoStreaming (appendFileMessages st sid files) := by
  intro files
  induction files with
  | nil => intro st hwf hns; exact ⟨hwf, hns⟩
  | cons f fs ih =>
    intro st hwf hns
    have hstep : appendFileMessages st sid (f :: fs)
        = appendFileMessages (appendMessage { st with nextId := st.nextId + 1 } sid
            ⟨st.nextId, sid, .user, .file, f.name, st.clock, .sent, none,
              some ⟨f.name, f.size, f.mime, "file_".toList ++ natKey st.nextId⟩⟩) sid fs := rfl
    rw [hstep]
    exact ih _ (MsgsWF_appendMessage_fresh st sid _ hwf rfl)
      (NoStreaming_appendMessage _ sid _ hns (by simp))

theorem sendFilesStart_inv (st : ChatState) (files : List UploadFile) (hwf : MsgsWF st)
    (hns : NoStreaming st) :
    GenInv (sendFilesStart st files) ∧
    ((∃ b, (sendFilesStart st files).2 = .finished b) ∨
      ∃ kind sid phId c, (sendFilesStart st files).2 = .awaitCompletion kind sid phId c) := by
  by_cases hfiles : files = []
  · simp only [sendFilesStart, if_pos hfiles]
    exact ⟨⟨hwf, hns⟩, Or.inl ⟨false, rfl⟩⟩
  · simp only [sendFilesStart, if_neg hfiles]
    have hE := appendFileMessages_inv (ensureSession st).2 files
      { (ensureSession st).1 with isSending := true }
      (MsgsWF_ensureSession st hwf) (NoStreaming_ensureSession st hns)
    refine ⟨⟨?_, ?_⟩, Or.inr ⟨.filesSend, _, _, _, rfl⟩⟩
    · exact MsgsWF_newController _ (MsgsWF_abortCurrent _ (MsgsWF_buildContext _ _
        (MsgsWF_appendMessage_fresh _ _ _ hE.1 rfl)))
    · exact SoleStreaming_newController _ _ _ (SoleStreaming_abortCurrent _ _ _
        (SoleStreaming_buildContext _ _ _
          (SoleStreaming_appendMessage_new _ _ _ hE.2)))

theorem regenStart_geninv (st : ChatState) (mid : Nat) (hwf : MsgsWF st)
    (hns : NoStreaming st) :
    GenInv (regenStart st mid) ∧
    ((∃ b, (regenStart st mid).2 = .finished b) ∨
      ∃ kind sid phId c, (regenStart st mid).2 = .awaitCompletion kind sid phId c) := by
  cases hact : st.sessionsStore.activeSessionId with
  | none =>
    simp only [regenStart, hact]
    exact ⟨⟨hwf, hns⟩, Or.inl ⟨false, rfl⟩⟩
  | some sid =>
    cases hfind : findIndexFrom (fun m => m.id == mid)
        (msgsOf st.messagesBySession sid) with
    | none =>
      simp only [regenStart, hact, hfind]
      exact ⟨⟨MsgsWF_ensureEntry st sid hwf, NoStreaming_ensureEntry st sid hns⟩,
        Or.inl ⟨false, rfl⟩⟩
    | some index =>
      cases hprev : ((msgsOf st.messagesBySession sid).take index).reverse.find?
          (fun m => m.role == ChatRole.user) with
      | none =>
        simp only [regenStart, hact, hfind, hprev]
        exact ⟨⟨MsgsWF_ensureEntry st sid hwf, NoStreaming_ensureEntry st sid hns⟩,
          Or.inl ⟨false, rfl⟩⟩
      | some u =>
        have hsplice : ∀ n : Nat, MsgsWF { ensureEntry st sid with
            messagesBySession := putMsgs (ensureEntry st sid).messagesBySession sid
              ((msgsOf st.messagesBySession sid).take (index + 1) ++
                (msgsOf st.messagesBySession sid).drop (index + 1 + n)) } ∧
          NoStreaming { ensureEntry st sid with
            messagesBySession := putMsgs (ensureEntry st sid).messagesBySession sid
              ((msgsOf st.messagesBySession sid).take (index + 1) ++
                (msgsOf st.messagesBySession sid).drop (index + 1 + n)) } := by
          intro n
          obtain ⟨F1, F2, h1, h2, _⟩ :=
            putMsgs_shape (ensureEntry st sid).messagesBySession sid
          have hmo : msgsOf (ensureEntry st sid).messagesBySession sid
              = msgsOf st.messagesBySession sid := ensureEntry_msgsOf st sid
          have hsubmid : List.Sublist
              ((msgsOf st.messagesBySession sid).take (index + 1) ++
                (msgsOf st.messagesBySession sid).drop (index + 1 + n))
              (msgsOf st.messagesBySession sid) :=
            splice_sublist _ _ _ (by omega)
          have hsub : List.Sublist (allMsgs { ensureEntry st sid with
              messagesBySession := putMsgs (ensureEntry st sid).messagesBySession sid
                ((msgsOf st.messagesBySession sid).take (index + 1) ++
                  (msgsOf st.messagesBySession sid).drop (index + 1 + n)) })
              (allMsgs (ensureEntry st sid)) := by
            show List.Sublist (flatMsgs (putMsgs (ensureEntry st sid).messagesBySession sid
              _)) (flatMsgs (ensureEntry st sid).messagesBySession)
            rw [h2 _, h1, hmo]
            exact ((hsubmid.append_left F1).append_right F2)
          exact ⟨MsgsWF_of_sublist _ _ hsub (by simp) (MsgsWF_ensureEntry st sid hwf),
            NoStreaming_of_sublist _ _ hsub (NoStreaming_ensureEntry st sid hns)⟩
        by_cases hpos : 0 < countLeadingCards
            ((msgsOf st.messagesBySession sid).drop (index + 1))
        · simp only [regenStart, hact, hfind, hprev, hpos, if_true]
          obtain ⟨hwfS, hnsS⟩ := hsplice
            (countLeadingCards ((msgsOf st.messagesBySession sid).drop (index + 1)))
          refine ⟨⟨?_, ?_⟩, Or.inr ⟨.regenerate, _, _, _, rfl⟩⟩
          · exact MsgsWF_newController _ (MsgsWF_abortCurrent _ (MsgsWF_updateMessage _ _ _
              _ (fun x => rfl) (MsgsWF_updateMessage _ _ _ _ (fun x => rfl)
                (MsgsWF_of_allMsgs_eq _ _ rfl (Nat.le_refl _) hwfS))))
          · exact SoleStreaming_newController _ _ _ (SoleStreaming_abortCurrent _ _ _
              (SoleStreaming_updateMessage _ _ _ _ (fun x => rfl)
                (MsgsWF_updateMessage _ _ _ _ (fun x => rfl)
                  (MsgsWF_of_allMsgs_eq _ _ rfl (Nat.le_refl _) hwfS))
                (SoleStreaming_setStatus_streaming _ _ _
                  (fun m hm => hnsS m hm))))
        · simp only [regenStart, hact, hfind, hprev, hpos, if_false]
          refine ⟨⟨?_, ?_⟩, Or.inr ⟨.regenerate, _, _, _, rfl⟩⟩
          · exact MsgsWF_newController _ (MsgsWF_abortCurrent _ (MsgsWF_updateMessage _ _ _
              _ (fun x => rfl) (MsgsWF_updateMessage _ _ _ _ (fun x => rfl)
                (MsgsWF_ensureEntry st sid hwf))))
          · exact SoleStreaming_newController _ _ _ (SoleStreaming_abortCurrent _ _ _
              (SoleStreaming_updateMessage _ _ _ _ (fun x => rfl)
                (MsgsWF_updateMessage _ _ _ _ (fun x => rfl)
                  (MsgsWF_ensureEntry st sid hwf))
                (SoleStreaming_setStatus_streaming _ _ _
                  (NoStreaming_ensureEntry st sid hns))))

theorem runGen_start_fin (cfg : ChatState × GenPhase) (res : CompletionResult)
    (h : GenInv cfg)
    (hph : (∃ b, cfg.2 = .finished b) ∨
      ∃ kind sid phId c, cfg.2 = .awaitCompletion kind sid phId c) :
    MsgsWF (runGen cfg (genEvents res)).1 ∧ NoStreaming (runGen cfg (genEvents res)).1 := by
  obtain ⟨s, ph⟩ := cfg
  rcases hph with ⟨b, hb⟩ | ⟨kind, sid, phId, c, hc⟩
  · simp only at hb
    subst hb
    rw [runGen_finished]
    obtain ⟨hwf2, hns2⟩ := h
    exact ⟨hwf2, hns2⟩
  · simp only at hc
    subst hc
    obtain ⟨hwf2, hss2⟩ := h
    exact runGen_complete_fin s kind sid phId c res hwf2 hss2

theorem runOp_inv (st : ChatState) (op : EngineOp) (hwf : MsgsWF st)
    (hns : NoStreaming st) : MsgsWF (runOp st op) ∧ NoStreaming (runOp st op) := by
  cases op with
  | send input res =>
    obtain ⟨hgi, hsh⟩ := sendStart_inv st input hwf hns
    exact runGen_start_fin _ res hgi hsh
  | sendFilesOp files res =>
    obtain ⟨hgi, hsh⟩ := sendFilesStart_inv st files hwf hns
    exact runGen_start_fin _ res hgi hsh
  | regen mid res =>
    obtain ⟨hgi, hsh⟩ := regenStart_geninv st mid hwf hns
    exact runGen_start_fin _ res hgi hsh
  | newSession title =>
    exact ⟨MsgsWF_startNewSession st title hwf, NoStreaming_startNewSession st title hns⟩
  | removeSession sid =>
    have hsub : List.Sublist (allMsgs (deleteSession st sid)) (allMsgs st) :=
      allMsgs_filter_sublist st (fun p => p.1 != sid)
    exact ⟨MsgsWF_of_sublist st _ hsub (Nat.le_refl _) hwf,
      NoStreaming_of_sublist st _ hsub hns⟩
  | renameOp sid title => exact ⟨hwf, hns⟩
  | setActiveOp sid => exact ⟨hwf, hns⟩
  | touchOp sid => exact ⟨hwf, hns⟩
  | resetOp =>
    have hempty : allMsgs (runOp st EngineOp.resetOp) = [] := rfl
    refine ⟨⟨by rw [hempty]; simp, fun m hm => ?_⟩, fun m hm => ?_⟩
    · rw [hempty] at hm
      simp at hm
    · rw [hempty] at hm
      simp at hm

theorem runOps_inv (ops : List EngineOp) :
    ∀ st : ChatState, MsgsWF st → NoStreaming st →
      MsgsWF (runOps st ops) ∧ NoStreaming (runOps st ops) := by
  induction ops with
  | nil => intro st hwf hns; exact ⟨hwf, hns⟩
  | cons op ops ih =>
    intro st hwf hns
    rw [runOps, List.foldl_cons]
    obtain ⟨hwf2, hns2⟩ := runOp_inv st op hwf hns
    exact ih (runOp st op) hwf2 hns2

theorem emptyChatState_inv : MsgsWF emptyChatState ∧ NoStreaming emptyChatState := by
  have hempty : allMsgs emptyChatState = [] := rfl
  refine ⟨⟨by rw [hempty]; simp, fun m hm => ?_⟩, fun m hm => ?_⟩
  · rw [hempty] at hm
    simp at hm
  · rw [hempty] at hm
    simp at hm

/-- C2 (amended): when operations never overlap — any sequence of completed
engine operations followed by any prefix of one more in-flight operation —
every observed state has at most one message with `status = streaming`
across the entire store.  The unrestricted claim, covering states observed
while two asynchronous operations overlap, is false (see the
counterexample: two overlapping sends leave two streaming placeholders). -/
theorem singleStreaming_nonoverlapping (ops : List EngineOp) (tail : PartialTail) :
    countStreaming (observe ops tail) ≤ 1 := by
  obtain ⟨hwf, hns⟩ := runOps_inv ops emptyChatState emptyChatState_inv.1
    emptyChatState_inv.2
  cases tail with
  | noTail =>
    have : countStreaming (runOps emptyChatState ops) = 0 :=
      countStreaming_eq_zero _ hns
    show countStreaming (runOps emptyChatState ops) ≤ 1
    omega
  | sendTail input evs =>
    obtain ⟨hgi, _⟩ := sendStart_inv (runOps emptyChatState ops) input hwf hns
    exact countStreaming_le_one_of_geninv _ (runGen_geninv evs _ hgi)
  | sendFilesTail files evs =>
    obtain ⟨hgi, _⟩ := sendFilesStart_inv (runOps emptyChatState ops) files hwf hns
    exact countStreaming_le_one_of_geninv _ (runGen_geninv evs _ hgi)
  | regenTail mid evs =>
    obtain ⟨hgi, _⟩ := regenStart_geninv (runOps emptyChatState ops) mid hwf hns
    exact countStreaming_le_one_of_geninv _ (runGen_geninv evs _ hgi)

/-- C3 counterexample: in a session `user 0, assistant 1, user 2,
assistant 3`, regenerating the first assistant message with a card-bearing
success appends the new `assistant`/`card` message (fresh id 10) at the END
of the session's message list (index 4) and at the end of `messageIds`
(`[0, 1, 2, 3, 10]`): position 2, immediately after the regenerated target,
still holds the later user message, so the card-contiguity invariant is
broken when the target is not the last message. -/
theorem regenerate_card_misplaced_counterexample :
    msgsOf (regenerateAssistantMessage regenCounterState 1
        (.ok "Hi!".toList (some regenCard))).messagesBySession 0
      = [regenU0, { regenA1 with content := "Hi!".toList, status := .sent }, regenM2, regenM3,
          ⟨10, 0, .assistant, .card, regenCard.title, 100, .sent, some regenCard, none⟩] ∧
    ((regenerateAssistantMessage regenCounterState 1
        (.ok "Hi!".toList (some regenCard))).sessionsStore.sessions.find?
        (fun s => s.id == 0)).map (fun s => s.messageIds) = some [0, 1, 2, 3, 10] := by
  decide

/-- Witness for the amended C3 theorem at a concrete state: target followed
only by its stale card; the regenerated target ends `sent` with the new
content and the fresh card message sits directly after it. -/
theorem regenerate_card_appended_witness :
    msgsOf (regenerateAssistantMessage regenWitnessState 1
        (.ok "Hi!".toList (some regenCard))).messagesBySession 0
      = [regenU0] ++ [{ regenA1 with content := "Hi!".toList, status := .sent },
          ⟨regenWitnessState.nextId, 0, .assistant, .card, regenCard.title,
            regenWitnessState.clock, .sent, some regenCard, none⟩] ∧
    ((regenerateAssistantMessage regenWitnessState 1
        (.ok "Hi!".toList (some regenCard))).sessionsStore.sessions.find?
        (fun s => s.id == 0)).map (fun s => s.messageIds) =
      some (([regenU0] ++ [regenA1]).map (fun m => m.id) ++ [regenWitnessState.nextId]) :=
  regenerate_card_appended regenWitnessState 0 1 [regenU0] [regenC2] regenA1
    "Hi!".toList regenCard regenSess rfl (by decide) rfl (by decide) (by decide) (by decide)
    (by decide) (by decide) (by decide) (by decide) (fun x h => Option.noConfusion h)

/-- C9: sending non-empty, non-whitespace text appends a `user` message with
`status = sent` followed by an `assistant` placeholder with
`status = streaming`; when the backend then resolves with content `c` and no
cancellation or delivery error occurs, the placeholder ends with
`status = sent` and content exactly `c` — the concatenation of the
streaming writer's fixed-size chunks reconstructs `c` exactly. -/
theorem sendMessage_happyPath (st : ChatState) (input content : Str)
    (hinput : trimStr input ≠ [])
    (hids : ∀ m ∈ allMsgs st, m.id < st.nextId)
    (hctrl : ∀ c ∈ st.abortedCtrls, c < st.nextCtrl)
    (hcur : ∀ c, st.abortController = some c → c < st.nextCtrl) :
    ∃ user ph : ChatMessage,
      msgsOf (sendStart st input).1.messagesBySession (sendTargetSession st) =
        msgsOf (ensureSession st).1.messagesBySession (sendTargetSession st) ++ [user, ph] ∧
      user.role = .user ∧ user.msgType = .text ∧ user.content = trimStr input ∧
      user.status = .sent ∧
      ph.role = .assistant ∧ ph.msgType = .text ∧ ph.content = [] ∧ ph.status = .streaming ∧
      msgsOf (sendMessage st input (.ok content none)).messagesBySession
          (sendTargetSession st) =
        msgsOf (ensureSession st).1.messagesBySession (sendTargetSession st) ++
          [user, { ph with content := content, status := .sent }] ∧
      (streamTextChunks content (some 4)).flatten = content := by
  have hflat := streamTextChunks_flatten content (some 4)
  have hbase : ∀ m ∈ msgsOf (ensureSession st).1.messagesBySession (sendTargetSession st),
      m.id < (ensureSession st).1.nextId := by
    intro m hm
    exact ensureSession_idBound st hids m (mem_flat_of_mem_msgsOf _ _ _ hm)
  have hbase2 : ∀ m ∈ msgsOf (ensureSession st).1.messagesBySession (sendTargetSession st) ++
      [{ id := (ensureSession st).1.nextId, sessionId := (ensureSession st).2, role := .user,
         msgType := .text, content := trimStr input,
         createdAt := (ensureSession st).1.clock, status := MessageStatus.sent }],
      (m.id == (ensureSession st).1.nextId + 1) = false := by
    intro m hm
    rcases List.mem_append.mp hm with hm | hm
    · have := hbase m hm
      simp only [beq_eq_false_iff_ne, ne_eq]
      omega
    · simp only [List.mem_singleton] at hm
      subst hm
      simp only [beq_eq_false_iff_ne, ne_eq]
      omega
  have hsigA : ctrlAborted (sendStart st input).1 (sendStart st input).1.abortController
      = false := by
    rw [sendStart_abortController st input hinput]
    have hnotmem : st.nextCtrl ∉ (sendStart st input).1.abortedCtrls := by
      intro hmem
      rcases sendStart_abortedCtrls st input hinput _ hmem with h | h
      · exact absurd (hctrl _ h) (by omega)
      · exact absurd (hcur _ h) (by omega)
    simp [ctrlAborted, hnotmem]
  have hrun : sendMessage st input (.ok content none)
      = (runGen (genStep (sendStart st input) (.complete (.ok content none)))
          (List.replicate (streamTextChunks content (some 4)).length .chunk)).1 := rfl
  have hgenstep : genStep (sendStart st input) (.complete (.ok content none))
      = genComplete (sendStart st input).1 .plainSend (sendTargetSession st)
          ((ensureSession st).1.nextId + 1) (.ok content none) := by
    conv_lhs =>
      rw [show sendStart st input = ((sendStart st input).1, (sendStart st input).2) from rfl]
    rw [sendStart_phase st input hinput]
    rfl
  refine ⟨⟨(ensureSession st).1.nextId, (ensureSession st).2, .user, .text, trimStr input,
      (ensureSession st).1.clock, .sent, none, none⟩,
    ⟨(ensureSession st).1.nextId + 1, (ensureSession st).2, .assistant, .text, [],
      (ensureSession st).1.clock, .streaming, none, none⟩,
    by rw [sendStart_msgs st input hinput]; simp [List.append_assoc],
    rfl, rfl, rfl, rfl, rfl, rfl, rfl, rfl, ?_, hflat⟩
  rw [hrun, hgenstep,
    runGen_complete _ .plainSend _ _ content none _ _ (sendStart_msgs st input hinput)
      (by simp) hbase2 rfl hsigA]
  simp [cardMsgsAppended, List.append_assoc]

/-- Witness for the send happy path at concrete inputs: a fresh store, the
input `Hello`, the backend content `Hi there`. -/
theorem sendMessage_happyPath_witness :
    trimStr "Hello".toList ≠ [] ∧
    (∀ m ∈ allMsgs emptyChatState, m.id < emptyChatState.nextId) ∧
    (∀ c ∈ emptyChatState.abortedCtrls, c < emptyChatState.nextCtrl) ∧
    (∀ c, emptyChatState.abortController = some c → c < emptyChatState.nextCtrl) ∧
    (∃ user ph : ChatMessage,
      msgsOf (sendStart emptyChatState "Hello".toList).1.messagesBySession
          (sendTargetSession emptyChatState) =
        msgsOf (ensureSession emptyChatState).1.messagesBySession
          (sendTargetSession emptyChatState) ++ [user, ph] ∧
      user.role = .user ∧ user.msgType = .text ∧ user.content = trimStr "Hello".toList ∧
      user.status = .sent ∧
      ph.role = .assistant ∧ ph.msgType = .text ∧ ph.content = [] ∧ ph.status = .streaming ∧
      msgsOf (sendMessage emptyChatState "Hello".toList
            (.ok "Hi there".toList none)).messagesBySession
          (sendTargetSession emptyChatState) =
        msgsOf (ensureSession emptyChatState).1.messagesBySession
          (sendTargetSession emptyChatState) ++
          [user, { ph with content := "Hi there".toList, status := .sent }] ∧
      (streamTextChunks "Hi there".toList (some 4)).flatten = "Hi there".toList) :=
  ⟨by decide, by simp [allMsgs, flatMsgs, emptyChatState], by simp [emptyChatState],
    by simp [emptyChatState],
    sendMessage_happyPath emptyChatState "Hello".toList "Hi there".toList (by decide)
      (by simp [allMsgs, flatMsgs, emptyChatState]) (by simp [emptyChatState])
      (by simp [emptyChatState])⟩

/-! ## C10: building the context window sets the active session -/

@[simp] theorem appendMessage_active (st : ChatState) (sid : Nat) (msg : ChatMessage) :
    (appendMessage st sid msg).sessionsStore.activeSessionId =
      st.sessionsStore.activeSessionId := rfl

@[simp] theorem touchSession_active (st : ChatState) (sid : Nat) :
    (touchSession st sid).sessionsStore.activeSessionId =
      st.sessionsStore.activeSessionId := rfl

@[simp] theorem updateMessage_active (st : ChatState) (sid mid : Nat)
    (f : ChatMessage → ChatMessage) :
    (updateMessage st sid mid f).sessionsStore.activeSessionId =
      st.sessionsStore.activeSessionId := rfl

@[simp] theorem appendCardMessage_active (st : ChatState) (sid : Nat) (card : AssistantCard) :
    (appendCardMessage st sid card).sessionsStore.activeSessionId =
      st.sessionsStore.activeSessionId := rfl

@[simp] theorem setMessageStatus_active (st : ChatState) (sid mid : Nat)
    (status : MessageStatus) :
    (setMessageStatus st sid mid status).sessionsStore.activeSessionId =
      st.sessionsStore.activeSessionId := rfl

@[simp] theorem finishOk_active (st : ChatState) (kind : WriterKind) (sid phId : Nat)
    (card : Option AssistantCard) :
    (finishOk st kind sid phId card).sessionsStore.activeSessionId =
      st.sessionsStore.activeSessionId := by
  cases kind <;> cases card <;> simp [finishOk]

@[simp] theorem finishErr_active (st : ChatState) (kind : WriterKind) (sid phId : Nat) :
    (finishErr st kind sid phId).1.sessionsStore.activeSessionId =
      st.sessionsStore.activeSessionId := by
  cases kind <;> simp [finishErr]

theorem genComplete_active (st : ChatState) (kind : WriterKind) (sid phId : Nat)
    (res : CompletionResult) :
    (genComplete st kind sid phId res).1.sessionsStore.activeSessionId =
      st.sessionsStore.activeSessionId := by
  cases res with
  | err => simp [genComplete]
  | ok content card =>
    cases hch : streamTextChunks content (some 4) with
    | nil => simp [genComplete, hch]
    | cons c cs =>
      by_cases hab : ctrlAborted st st.abortController = true
      · simp [genComplete, hch, hab]
      · simp [genComplete, hch, hab]

theorem genChunkStep_active (st : ChatState) (kind : WriterKind) (sid phId : Nat)
    (sig : Option Nat) (rest : List Str) (card : Option AssistantCard) :
    (genChunkStep st kind sid phId sig rest card).1.sessionsStore.activeSessionId =
      st.sessionsStore.activeSessionId := by
  cases rest with
  | nil => simp [genChunkStep]
  | cons c cs =>
    cases cs with
    | nil => simp [genChunkStep]
    | cons c2 cs2 =>
      by_cases hab : ctrlAborted st sig = true
      · simp [genChunkStep, hab]
      · simp [genChunkStep, hab]

theorem genStep_active (cfg : ChatState × GenPhase) (ev : GenEv) :
    (genStep cfg ev).1.sessionsStore.activeSessionId =
      cfg.1.sessionsStore.activeSessionId := by
  rcases cfg with ⟨st, ph⟩
  cases ph with
  | awaitCompletion kind sid phId ctrl =>
    cases ev with
    | complete res => exact genComplete_active st kind sid phId res
    | chunk => rfl
  | awaitChunk kind sid phId sig rest card =>
    cases ev with
    | complete res => rfl
    | chunk => exact genChunkStep_active st kind sid phId sig rest card
  | readySend input => rfl
  | finished threw => rfl

theorem runGen_active (cfg : ChatState × GenPhase) (evs : List GenEv) :
    (runGen cfg evs).1.sessionsStore.activeSessionId =
      cfg.1.sessionsStore.activeSessionId := by
  induction evs generalizing cfg with
  | nil => rfl
  | cons e es ih =>
    rw [runGen, List.foldl_cons, ← runGen, ih, genStep_active]

theorem sendStart_active (st : ChatState) (input : Str) (hinput : trimStr input ≠ []) :
    (sendStart st input).1.sessionsStore.activeSessionId =
      some (sendTargetSession st) := by
  simp only [sendStart, if_neg hinput, sendTargetSession]
  simp

theorem sendFilesStart_active (st : ChatState) (files : List UploadFile)
    (hfiles : files ≠ []) :
    (sendFilesStart st files).1.sessionsStore.activeSessionId =
      some (sendTargetSession st) := by
  simp only [sendFilesStart, if_neg hfiles, sendTargetSession]
  simp

/-- C10: building the context window is not a pure read — it sets the
registry's active-session pointer to its argument — and consequently every
`sendMessage` call with non-whitespace input and every `sendFiles` call
with a non-empty batch leaves the active-session pointer on the session the
messages were appended to (the ensured session), whatever the backend
outcome. -/
theorem buildContext_setsActive (st : ChatState) :
    (∀ sid, (buildContextMessages st sid).1.sessionsStore.activeSessionId = some sid) ∧
    (buildContextMessages emptyChatState 7).1 ≠ emptyChatState ∧
    (∀ input res, trimStr input ≠ [] →
      (sendMessage st input res).sessionsStore.activeSessionId =
        some (sendTargetSession st)) ∧
    (∀ files res, files ≠ [] →
      (sendFiles st files res).sessionsStore.activeSessionId =
        some (sendTargetSession st)) := by
  refine ⟨fun sid => buildContextMessages_active st sid, by decide, ?_, ?_⟩
  · intro input res hinput
    rw [sendMessage, runGen_active, sendStart_active st input hinput]
  · intro files res hfiles
    rw [sendFiles, runGen_active, sendFilesStart_active st files hfiles]

/-- Witness for the context-window side effect at concrete inputs. -/
theorem buildContext_setsActive_witness :
    trimStr "Hello".toList ≠ [] ∧
    ([⟨"a.txt".toList, 3, "text/plain".toList⟩] : List UploadFile) ≠ [] ∧
    (sendMessage emptyChatState "Hello".toList
        (.ok "Hi".toList none)).sessionsStore.activeSessionId =
      some (sendTargetSession emptyChatState) ∧
    (sendFiles emptyChatState [⟨"a.txt".toList, 3, "text/plain".toList⟩]
        (.ok "Hi".toList none)).sessionsStore.activeSessionId =
      some (sendTargetSession emptyChatState) :=
  ⟨by decide, by decide,
    (buildContext_setsActive emptyChatState).2.2.1 "Hello".toList (.ok "Hi".toList none)
      (by decide),
    (buildContext_setsActive emptyChatState).2.2.2 [⟨"a.txt".toList, 3, "text/plain".toList⟩]
      (.ok "Hi".toList none) (by decide)⟩

/-! ## C5: persistence round-trip -/

/-- C5: for every snapshot (a sessions list with its per-session message
map), persisting it (`makePersistedState` then `saveToStorage`) and loading
it back (`readInitialChatState`) yields a value structurally equal to the
persisted snapshot. -/
theorem load_persist_roundTrip (sessions : List ChatSession)
    (messages : List (Nat × List ChatMessage)) :
    readInitialChatState (persistChatState (makePersistedState sessions messages)) =
      .val (makePersistedState sessions messages) := rfl

/-! ## C4: the load contract -/

/-- C4 counterexample: the stored value `5` is present and parsable, yet
`loadFromStorage` returns neither a stored `data` field (the parse result
carries none) nor the empty state — it returns `undefined`. -/
theorem loadFromStorage_undef_counterexample :
    loadFromStorage (some (some (.num 5))) emptyStateJson = .undef ∧
    JsValue.undef ≠ .val emptyStateJson ∧
    dataMember (.num 5) = .undef :=
  ⟨rfl, fun h => JsValue.noConfusion h, rfl⟩

/-- C4 (amended): `loadFromStorage` returns the parse result's `data` field
when the stored value parses to an object that has one; the fallback when
the key is absent, the value is unparsable, or it parses to `null`; and
`undefined` when it parses to any other value (including objects without a
`data` field). -/
theorem loadFromStorage_contract (stored : Option (Option Json)) (fallback : Json) :
    loadFromStorage stored fallback = loadContract stored fallback := by
  match stored with
  | none => rfl
  | some none => rfl
  | some (some .null) => rfl
  | some (some (.bool b)) => rfl
  | some (some (.num n)) => rfl
  | some (some (.str s)) => rfl
  | some (some (.arr elems)) => rfl
  | some (some (.obj fields)) =>
    simp only [loadFromStorage, dataMember, loadContract]
    match jsonField fields "data".toList with
    | some v => rfl
    | none => rfl

/-! ## C1: cancelling an in-flight send by starting a second send -/

/-- C1 counterexample: in the canonical scenario-C interleaving the first
send's placeholder (message 2 of session 0) ends with `status = sent`, not
`status = error` — the abort is signalled on a controller the first send's
streaming no longer reads, and `streamIntoMessage` swallows `AbortError`
anyway — while the first send finishes without throwing. -/
theorem scenarioC_firstPlaceholder_sent :
    messageStatusIn (runTwo twoSendsInit scenarioCTrace).st 0 2 = some .sent ∧
    (runTwo twoSendsInit scenarioCTrace).t1 = .finished false ∧
    MessageStatus.sent ≠ .error := by decide

/-- C1 (amended): starting a second send while a first send is in flight
leaves the first send's placeholder with `status = sent` (not `error`: the
cancellation never surfaces, because the first send's streaming writer
reads the replaced controller's signal, and swallows `AbortError` when it
does observe one mid-stream), and the second send's completion runs to its
normal end with both placeholders `sent` and no exception thrown out of
either send — in every interleaving of the two sends' resolutions. -/
theorem twoSends_allInterleavings_sent :
    ((merges send1Events send2Events).map
        (fun tr => runTwo twoSendsInit (.start1 :: tr))).all
      (fun c => messageStatusIn c.st 0 2 == some .sent
        && messageStatusIn c.st 0 4 == some .sent
        && c.t1 == .finished false && c.t2 == .finished false) = true := by decide

/-! ## C2: the single-streaming invariant -/

/-- C2 counterexample: the state reached after a second send starts while a
first send awaits its completion is a reachable state with two messages in
`status = streaming` — the first send's placeholder is still streaming when
the second send appends its own streaming placeholder. -/
theorem twoStreaming_counterexample :
    countStreaming (runTwo twoSendsInit [.start1, .start2]).st = 2 ∧
    ¬ countStreaming (runTwo twoSendsInit [.start1, .start2]).st ≤ 1 := by decide

end LLMChat
